import Mathlib

/-!
Shallow embedding of the computational core of `crypto-volatility`
(`src/calculators/volatility.ts` and `src/calculators/dvol.ts`).

Modelling conventions:
* JavaScript numbers are modelled by `ℝ`.  On every code path reachable from
  finite inputs, the arithmetic of the program stays within the finite reals,
  with one family of exceptions: the coefficient-of-variation confidence
  formulas divide by a mean that can be `0`.  There JavaScript produces
  `NaN` (for `0/0`) or `±Infinity` (for `x/0`, `x ≠ 0`), and the `NaN`
  survives `Math.min`/`Math.max`.  Those computations are therefore modelled
  with `Option ℝ`, `none` standing for a `NaN` result (see `stabilityScore`).
* A second, tiny model `JVal` (finite real or `NaN`) is used to settle the
  behaviour of `calculateLogReturns` on non-finite prices, which the `ℝ`
  model cannot express.
* `throw new Error(msg)` is modelled by `Except String` with the source's
  message strings.
* `new Date()` in `calculateDVOL` reads the ambient clock; the model makes
  that read an explicit extra argument `now : ℤ` (epoch milliseconds).
-/

open scoped Classical

noncomputable section

/-- `PriceData` from `types.ts`: a timestamped price. -/
structure PriceData where
  timestamp : ℤ
  price : ℝ

/-- `DVOLMethod` from `types.ts`: the string union `'simple'|'ewma'|'garch'`. -/
inductive DVOLMethod where
  | simple : DVOLMethod
  | ewma : DVOLMethod
  | garch : DVOLMethod
deriving DecidableEq

/-- `GARCHParams` from `types.ts`. -/
structure GARCHParams where
  omega : ℝ
  alpha : ℝ
  beta : ℝ

/-- `VolatilityMetrics` from `types.ts`. -/
structure VolatilityMetrics where
  volatility : ℝ
  variance : ℝ
  annualizedVolatility : ℝ

namespace VolatilityCalculator

/-- Value part of `calculateLogReturns`'s loop: given the previous price and
the remaining prices, the list of `Math.log(prices[i] / prices[i-1])`. -/
def pairLogs : ℝ → List ℝ → List ℝ
  | _, [] => []
  | prev, p :: rest => Real.log (p / prev) :: pairLogs p rest

/-- The loop of `calculateLogReturns` (volatility.ts lines 12-19): per
iteration, throw if either adjacent price is `<= 0`, otherwise push
`Math.log(prices[i] / prices[i-1])`. -/
def logReturnsAux : ℝ → List ℝ → Except String (List ℝ)
  | _, [] => .ok []
  | prev, p :: rest =>
    if prev ≤ 0 ∨ p ≤ 0 then .error "Prices must be positive"
    else do
      let rs ← logReturnsAux p rest
      .ok (Real.log (p / prev) :: rs)

/-- `VolatilityCalculator.calculateLogReturns` (volatility.ts lines 7-21). -/
def calculateLogReturns : List ℝ → Except String (List ℝ)
  | [] => .error "Need at least 2 price points to calculate returns"
  | [_] => .error "Need at least 2 price points to calculate returns"
  | prev :: rest => logReturnsAux prev rest

/-- `VolatilityCalculator.calculateMean` (volatility.ts lines 26-31). -/
def calculateMean (values : List ℝ) : Except String ℝ :=
  if values.length = 0 then .error "Cannot calculate mean of empty array"
  else .ok (values.sum / values.length)

/-- `VolatilityCalculator.calculateVariance` (volatility.ts lines 36-46):
sample variance, divisor `n - 1`. -/
def calculateVariance (values : List ℝ) : Except String ℝ :=
  if values.length < 2 then .error "Need at least 2 values to calculate variance"
  else do
    let mean ← calculateMean values
    .ok (((values.map fun v => (v - mean) ^ 2).sum) / ((values.length : ℝ) - 1))

/-- `VolatilityCalculator.calculateStandardDeviation` (volatility.ts
lines 51-53). -/
def calculateStandardDeviation (values : List ℝ) : Except String ℝ :=
  (calculateVariance values).map Real.sqrt

/-- `VolatilityCalculator.annualizeVolatility` (volatility.ts lines 58-63). -/
def annualizeVolatility (volatility periodsPerYear : ℝ) : Except String ℝ :=
  if periodsPerYear ≤ 0 then .error "Periods per year must be positive"
  else .ok (volatility * Real.sqrt periodsPerYear)

/-- `VolatilityCalculator.getPeriodsPerYear` (volatility.ts lines 68-83). -/
def getPeriodsPerYear (period : String) (dataPoints : ℕ) : ℕ :=
  if period = "1d" then 365 * 24
  else if period = "30d" then 365
  else if period = "365d" then 365
  else min 365 (dataPoints * 12)

/-- `VolatilityCalculator.calculateMetrics` (volatility.ts lines 88-110). -/
def calculateMetrics (priceData : List PriceData) (period : String) :
    Except String VolatilityMetrics :=
  if priceData.length < 2 then .error "Need at least 2 price points"
  else do
    let prices := priceData.map PriceData.price
    let logReturns ← calculateLogReturns prices
    let variance ← calculateVariance logReturns
    let volatility := Real.sqrt variance
    let periodsPerYear := getPeriodsPerYear period logReturns.length
    let annualizedVolatility ← annualizeVolatility volatility periodsPerYear
    .ok ⟨volatility * 100, variance * 10000, annualizedVolatility * 100⟩

end VolatilityCalculator

/-- `DVOLOptions` from dvol.ts: all four fields optional. -/
structure DVOLOptions where
  windowSize : Option ℕ := none
  ewmaLambda : Option ℝ := none
  garchParams : Option GARCHParams := none
  annualizationFactor : Option ℝ := none

/-- `DVOLResult` from dvol.ts.  `confidence` is `Option ℝ` because the
JavaScript confidence value can be `NaN` (encoded `none`); `calculatedAt`
is the epoch-millisecond value of the `new Date()` stamped on the result. -/
structure DVOLResult where
  dvol : ℝ
  dvolIndex : ℝ
  confidence : Option ℝ
  method : DVOLMethod
  dataPoints : ℕ
  calculatedAt : ℤ

/-- The `{ dvol, confidence }` pair returned by each private estimator. -/
structure MethodResult where
  dvol : ℝ
  confidence : Option ℝ

/-- The record returned by `calculateDiagnostics`. -/
structure DiagnosticsResult where
  autocorrelation : ℝ
  heteroskedasticity : ℝ
  skewness : ℝ
  kurtosis : ℝ

namespace DVOLCalculator

def DEFAULT_WINDOW_SIZE : ℕ := 30

def DEFAULT_EWMA_LAMBDA : ℝ := 0.94

def DEFAULT_GARCH_PARAMS : GARCHParams := ⟨0.000001, 0.1, 0.85⟩

def ANNUALIZATION_FACTOR : ℝ := 365

/-- JavaScript evaluation of `Math.max(0, Math.min(100, 100 - (std / m) * 100))`
(dvol.ts line 111 and lines 228-231).  For `m ≠ 0` this is the real-number
clamp.  For `m = 0` JavaScript divides to `NaN` (when `std = 0`) or `±Infinity`;
`NaN` survives `Math.min`/`Math.max` (encoded `none`), while `100 - (+∞) = -∞`
clamps to `0` and `100 - (-∞) = +∞` clamps to `100`. -/
def stabilityScore (std m : ℝ) : Option ℝ :=
  if m = 0 then
    if std = 0 then none
    else if 0 < std then some 0
    else some 100
  else some (max 0 (min 100 (100 - std / m * 100)))

/-- `DVOLCalculator.calculateStability` (dvol.ts lines 223-232). -/
def calculateStability (variances : List ℝ) : Except String (Option ℝ) :=
  if variances.length < 2 then .ok (some 50)
  else do
    let mean ← VolatilityCalculator.calculateMean variances
    let std ← VolatilityCalculator.calculateStandardDeviation variances
    .ok (stabilityScore std mean)

/-- The index list `[windowSize-1, ..., logReturns.length-1]` walked by the
rolling-window loop of `calculateSimpleDVOL`: `idxFrom s n` is
`[s, s+1, ..., s+n-1]`. -/
def idxFrom (s : ℕ) : ℕ → List ℕ
  | 0 => []
  | n + 1 => s :: idxFrom (s + 1) n

/-- The rolling-window loop of `calculateSimpleDVOL` (dvol.ts lines 99-104):
for each index `i`, push `Math.sqrt(calculateVariance(logReturns.slice(i -
windowSize + 1, i + 1)))`, propagating any throw from `calculateVariance`. -/
def rollingVols (logReturns : List ℝ) (windowSize : ℕ) :
    List ℕ → Except String (List ℝ)
  | [] => .ok []
  | i :: rest => do
    let variance ←
      VolatilityCalculator.calculateVariance
        ((logReturns.drop (i + 1 - windowSize)).take windowSize)
    let vols ← rollingVols logReturns windowSize rest
    .ok (Real.sqrt variance :: vols)

/-- `DVOLCalculator.calculateSimpleDVOL` (dvol.ts lines 84-114).  The loop
runs `i` from `windowSize - 1` to `logReturns.length - 1`; the model assumes
an integer `windowSize ≥ 1` (JavaScript index arithmetic for smaller or
fractional window sizes is outside the model). -/
def calculateSimpleDVOL (priceData : List PriceData) (windowSize : ℕ)
    (annualizationFactor : ℝ) : Except String MethodResult := do
  let prices := priceData.map PriceData.price
  let logReturns ← VolatilityCalculator.calculateLogReturns prices
  if logReturns.length < windowSize then
    .error "Insufficient data for window size"
  else do
    let volatilities ←
      rollingVols logReturns windowSize
        (idxFrom (windowSize - 1) (logReturns.length - windowSize + 1))
    let meanVol ← VolatilityCalculator.calculateMean volatilities
    let dvol := meanVol * Real.sqrt annualizationFactor * 100
    let volatilityStd ← VolatilityCalculator.calculateStandardDeviation volatilities
    let meanVolAgain ← VolatilityCalculator.calculateMean volatilities
    .ok ⟨dvol, stabilityScore volatilityStd meanVolAgain⟩

/-- The EWMA recursion of `calculateEWMADVOL` (dvol.ts lines 140-143):
given `lambda`, the previous variance and the remaining returns, the list of
pushed variances `lambda * var + (1 - lambda) * r^2`. -/
def ewmaVarsAux (lambda : ℝ) : ℝ → List ℝ → List ℝ
  | _, [] => []
  | v, r :: rest =>
    let v2 := lambda * v + (1 - lambda) * r ^ 2
    v2 :: ewmaVarsAux lambda v2 rest

/-- The full `variances` array built by `calculateEWMADVOL` (dvol.ts
lines 136-143): seeded with `logReturns[0] ^ 2`. -/
def ewmaVariances (lambda : ℝ) : List ℝ → List ℝ
  | [] => []
  | r :: rest => r ^ 2 :: ewmaVarsAux lambda (r ^ 2) rest

/-- `DVOLCalculator.calculateEWMADVOL` (dvol.ts lines 119-154).  The final
value of the loop variable `ewmaVariance` is the last element of
`variances`, hence `getLastD`. -/
def calculateEWMADVOL (priceData : List PriceData) (lambda annualizationFactor : ℝ) :
    Except String MethodResult :=
  if lambda ≤ 0 ∨ 1 ≤ lambda then
    .error "EWMA lambda must be between 0 and 1"
  else do
    let prices := priceData.map PriceData.price
    let logReturns ← VolatilityCalculator.calculateLogReturns prices
    if logReturns.length < 2 then
      .error "Need at least 2 returns for EWMA calculation"
    else do
      let variances := ewmaVariances lambda logReturns
      let dvol := Real.sqrt (variances.getLastD 0 * annualizationFactor) * 100
      let recentVariances := variances.drop (variances.length - min 10 variances.length)
      let varianceStability ← calculateStability recentVariances
      .ok ⟨dvol, varianceStability.map fun c => max 0 (min 100 c)⟩

/-- The GARCH(1,1) loop of `calculateGARCHDVOL` (dvol.ts lines 186-197):
given the previous return and previous variance, each step pushes
`omega + alpha * prevReturn^2 + beta * prevVariance` onto the variance list
and `r / Math.sqrt(variance)` onto the standardized-residual list. -/
def garchSteps (omega alpha beta : ℝ) : ℝ → ℝ → List ℝ → List ℝ × List ℝ
  | _, _, [] => ([], [])
  | prev, v, r :: rest =>
    let v2 := omega + alpha * prev ^ 2 + beta * v
    let e := r / Real.sqrt v2
    let p := garchSteps omega alpha beta r v2 rest
    (v2 :: p.1, e :: p.2)

/-- `DVOLCalculator.calculateGARCHConfidence` (dvol.ts lines 237-259).
The combined score `(qualityScore + varianceStability) / 2` inherits a
`NaN` variance stability, hence the `Option.map`. -/
def calculateGARCHConfidence (standardizedResiduals variances : List ℝ) :
    Except String (Option ℝ) :=
  if standardizedResiduals.length = 0 then .ok (some 50)
  else do
    let residualMean ← VolatilityCalculator.calculateMean standardizedResiduals
    let residualStd ← VolatilityCalculator.calculateStandardDeviation standardizedResiduals
    let qualityScore := max 0 (100 - (|residualMean| + |residualStd - 1|) * 50)
    let varianceStability ← calculateStability variances
    .ok (varianceStability.map fun v => (qualityScore + v) / 2)

/-- `DVOLCalculator.calculateGARCHDVOL` (dvol.ts lines 159-206).  The final
value of the loop variable `variance` is the last element of `variances`. -/
def calculateGARCHDVOL (priceData : List PriceData) (params : GARCHParams)
    (annualizationFactor : ℝ) : Except String MethodResult :=
  if params.omega ≤ 0 ∨ params.alpha < 0 ∨ params.beta < 0 ∨
      1 ≤ params.alpha + params.beta then
    .error "Invalid GARCH parameters"
  else do
    let prices := priceData.map PriceData.price
    let logReturns ← VolatilityCalculator.calculateLogReturns prices
    if logReturns.length < 10 then
      .error "Need at least 10 returns for GARCH calculation"
    else do
      let unconditionalVariance ← VolatilityCalculator.calculateVariance logReturns
      let steps :=
        garchSteps params.omega params.alpha params.beta
          (logReturns.headD 0) unconditionalVariance logReturns.tail
      let variances := unconditionalVariance :: steps.1
      let standardizedResiduals := steps.2
      let dvol := Real.sqrt (variances.getLastD 0 * annualizationFactor) * 100
      let confidence ← calculateGARCHConfidence standardizedResiduals variances
      .ok ⟨dvol, confidence⟩

/-- `DVOLCalculator.calculateDVOLIndex` (dvol.ts lines 211-218). -/
def calculateDVOLIndex (dvol : ℝ) : ℝ :=
  max 0 (min 100 ((dvol - 10) / (200 - 10) * 100))

/-- The per-method minimum of dvol.ts line 273:
`method === 'garch' ? 10 : method === 'ewma' ? 5 : 2`. -/
def minDataPoints : DVOLMethod → ℕ
  | .garch => 10
  | .ewma => 5
  | .simple => 2

/-- `DVOLCalculator.validateInput` (dvol.ts lines 264-286).  Over the
real-valued model `Number.isFinite(price)` is identically true, so the
filter keeps exactly the prices `<= 0`; the `JVal` model below covers the
`NaN` case. -/
def validateInput (priceData : List PriceData) (method : DVOLMethod) :
    Except String Unit :=
  if priceData.length = 0 then .error "Price data cannot be empty"
  else if priceData.length < 2 then .error "Need at least 2 price points for DVOL calculation"
  else if priceData.length < minDataPoints method then
    .error "method requires more data points"
  else if (priceData.filter fun d => d.price ≤ 0).length ≠ 0 then
    .error "All prices must be positive finite numbers"
  else .ok ()

/-- `DVOLCalculator.calculateDVOL` (dvol.ts lines 37-79).  `now` is the
epoch-millisecond reading of the `new Date()` on line 77. -/
def calculateDVOL (priceData : List PriceData) (method : DVOLMethod)
    (options : DVOLOptions) (now : ℤ) : Except String DVOLResult := do
  validateInput priceData method
  let windowSize := options.windowSize.getD DEFAULT_WINDOW_SIZE
  let ewmaLambda := options.ewmaLambda.getD DEFAULT_EWMA_LAMBDA
  let garchParams := options.garchParams.getD DEFAULT_GARCH_PARAMS
  let annualizationFactor := options.annualizationFactor.getD ANNUALIZATION_FACTOR
  let out ←
    match method with
    | .simple => calculateSimpleDVOL priceData windowSize annualizationFactor
    | .ewma => calculateEWMADVOL priceData ewmaLambda annualizationFactor
    | .garch => calculateGARCHDVOL priceData garchParams annualizationFactor
  .ok ⟨out.dvol, calculateDVOLIndex out.dvol, out.confidence, method,
        priceData.length, now⟩

/-- `DVOLCalculator.calculateAutocorrelation` (dvol.ts lines 315-333).
The numerator sums over `i = 0 .. n-lag-1`, the denominator over the whole
series. -/
def calculateAutocorrelation (returns : List ℝ) (lag : ℕ) : Except String ℝ :=
  if returns.length ≤ lag then .ok 0
  else do
    let mean ← VolatilityCalculator.calculateMean returns
    let n := returns.length - lag
    let numerator :=
      ((List.range n).map fun i =>
        (returns.getD i 0 - mean) * (returns.getD (i + lag) 0 - mean)).sum
    let denominator :=
      ((List.range returns.length).map fun i => (returns.getD i 0 - mean) ^ 2).sum
    .ok (if denominator = 0 then 0 else numerator / denominator)

/-- `DVOLCalculator.calculateHeteroskedasticity` (dvol.ts lines 338-341). -/
def calculateHeteroskedasticity (returns : List ℝ) : Except String ℝ :=
  calculateAutocorrelation (returns.map fun r => r * r) 1

/-- `DVOLCalculator.calculateSkewness` (dvol.ts lines 346-358). -/
def calculateSkewness (returns : List ℝ) : Except String ℝ := do
  let mean ← VolatilityCalculator.calculateMean returns
  let std ← VolatilityCalculator.calculateStandardDeviation returns
  if std = 0 then .ok 0
  else .ok (((returns.map fun r => ((r - mean) / std) ^ 3).sum) / returns.length)

/-- `DVOLCalculator.calculateKurtosis` (dvol.ts lines 363-375). -/
def calculateKurtosis (returns : List ℝ) : Except String ℝ := do
  let mean ← VolatilityCalculator.calculateMean returns
  let std ← VolatilityCalculator.calculateStandardDeviation returns
  if std = 0 then .ok 0
  else .ok (((returns.map fun r => ((r - mean) / std) ^ 4).sum) / returns.length - 3)

/-- `DVOLCalculator.calculateDiagnostics` (dvol.ts lines 291-310): the four
statistics are computed in source order (a throw in an earlier one
propagates before a later one runs); `method` and `options` are unused by
the source body. -/
def calculateDiagnostics (priceData : List PriceData) (_method : DVOLMethod)
    (_options : DVOLOptions) : Except String DiagnosticsResult := do
  let prices := priceData.map PriceData.price
  let logReturns ← VolatilityCalculator.calculateLogReturns prices
  let autocorrelation ← calculateAutocorrelation logReturns 1
  let heteroskedasticity ← calculateHeteroskedasticity logReturns
  let skewness ← calculateSkewness logReturns
  let kurtosis ← calculateKurtosis logReturns
  .ok ⟨autocorrelation, heteroskedasticity, skewness, kurtosis⟩

end DVOLCalculator

/-- A JavaScript number that is either a finite real or `NaN`.  Used to
settle how `calculateLogReturns` treats non-finite prices, which the plain
`ℝ` model cannot express. -/
inductive JVal where
  | nan : JVal
  | fin : ℝ → JVal

namespace JVal

/-- JavaScript `x <= 0`: false when `x` is `NaN`. -/
def leZero : JVal → Prop
  | .nan => False
  | .fin x => x ≤ 0

/-- JavaScript division on this fragment.  `NaN` operands propagate; a zero
divisor gives `±Infinity` or `NaN` in JavaScript, all non-finite, collapsed
to `nan` here (unreachable after the positivity guard of
`calculateLogReturns`, whose divisors are `> 0`). -/
def div : JVal → JVal → JVal
  | .fin a, .fin b => if b = 0 then .nan else .fin (a / b)
  | _, _ => .nan

/-- JavaScript `Math.log` on this fragment: `NaN` for `NaN`; for finite `x`,
`Math.log x` is finite when `0 < x`, and `-Infinity`/`NaN` (non-finite,
collapsed to `nan`) otherwise. -/
def log : JVal → JVal
  | .nan => .nan
  | .fin x => if 0 < x then .fin (Real.log x) else .nan

end JVal

namespace VolatilityCalculator

/-- The loop of `calculateLogReturns` over `JVal` prices, mirroring
`logReturnsAux` with JavaScript comparison semantics: a `NaN` price makes
both `<= 0` checks false, so no error is thrown for it. -/
def logReturnsAuxJ : JVal → List JVal → Except String (List JVal)
  | _, [] => .ok []
  | prev, p :: rest =>
    if prev.leZero ∨ p.leZero then .error "Prices must be positive"
    else do
      let rs ← logReturnsAuxJ p rest
      .ok (JVal.log (p.div prev) :: rs)

/-- `VolatilityCalculator.calculateLogReturns` over `JVal` prices
(volatility.ts lines 7-21). -/
def calculateLogReturnsJ : List JVal → Except String (List JVal)
  | [] => .error "Need at least 2 price points to calculate returns"
  | [_] => .error "Need at least 2 price points to calculate returns"
  | prev :: rest => logReturnsAuxJ prev rest

end VolatilityCalculator

/-! ### Specification-side statistics

Total real-valued mean and sample variance, used to state the claims; the
lemmas below connect them to the `Except`-valued source functions. -/

/-- Arithmetic mean of a list of reals. -/
def meanR (l : List ℝ) : ℝ := l.sum / l.length

/-- Sample variance (divisor `n - 1`). -/
def sampleVar (l : List ℝ) : ℝ :=
  ((l.map fun v => (v - meanR l) ^ 2).sum) / ((l.length : ℝ) - 1)

namespace VolatilityCalculator

theorem calculateMean_ok (l : List ℝ) (h : l ≠ []) :
    calculateMean l = .ok (meanR l) := by
  simp [calculateMean, meanR, List.length_eq_zero, h]

theorem calculateVariance_ok (l : List ℝ) (h : 2 ≤ l.length) :
    calculateVariance l = .ok (sampleVar l) := by
  have hne : l ≠ [] := by
    intro he
    simp [he] at h
  rw [calculateVariance, if_neg (by omega)]
  rw [calculateMean_ok l hne]
  rfl

theorem calculateStandardDeviation_ok (l : List ℝ) (h : 2 ≤ l.length) :
    calculateStandardDeviation l = .ok (Real.sqrt (sampleVar l)) := by
  rw [calculateStandardDeviation, calculateVariance_ok l h]
  rfl

theorem calculateStandardDeviation_err (l : List ℝ) (h : l.length < 2) :
    calculateStandardDeviation l = .error "Need at least 2 values to calculate variance" := by
  rw [calculateStandardDeviation, calculateVariance, if_pos h]
  rfl

theorem sampleVar_nonneg (l : List ℝ) (h : 2 ≤ l.length) : 0 ≤ sampleVar l := by
  apply div_nonneg
  · apply List.sum_nonneg
    intro x hx
    simp only [List.mem_map] at hx
    obtain ⟨v, _, hv⟩ := hx
    rw [← hv]
    positivity
  · have : (2 : ℝ) ≤ (l.length : ℝ) := by exact_mod_cast h
    linarith

theorem meanR_replicate (n : ℕ) (c : ℝ) (h : n ≠ 0) :
    meanR (List.replicate n c) = c := by
  simp only [meanR, List.sum_replicate, List.length_replicate, nsmul_eq_mul]
  rw [mul_comm, mul_div_assoc, div_self (by exact_mod_cast h), mul_one]

theorem sampleVar_replicate (n : ℕ) (c : ℝ) (h : n ≠ 0) :
    sampleVar (List.replicate n c) = 0 := by
  simp only [sampleVar, meanR_replicate n c h, List.map_replicate, List.length_replicate]
  simp

theorem mean_replicate_zero (n : ℕ) (h : n ≠ 0) :
    calculateMean (List.replicate n (0 : ℝ)) = .ok 0 := by
  rw [calculateMean_ok _ (by simp [h]), meanR_replicate n 0 h]

theorem std_replicate_zero (n : ℕ) (h : 2 ≤ n) :
    calculateStandardDeviation (List.replicate n (0 : ℝ)) = .ok 0 := by
  rw [calculateStandardDeviation_ok _ (by simpa using h),
    sampleVar_replicate n 0 (by omega), Real.sqrt_zero]

/-! ### Characterization of `calculateLogReturns` -/

theorem pairLogs_length (prev : ℝ) (rest : List ℝ) :
    (pairLogs prev rest).length = rest.length := by
  induction rest generalizing prev with
  | nil => rfl
  | cons p rest ih => simp [pairLogs, ih]

theorem pairLogs_getD (prev : ℝ) (rest : List ℝ) :
    ∀ i < rest.length,
      (pairLogs prev rest).getD i 0 =
        Real.log ((prev :: rest).getD (i + 1) 0 / (prev :: rest).getD i 0) := by
  induction rest generalizing prev with
  | nil => intro i hi; simp at hi
  | cons p rest ih =>
    intro i hi
    match i with
    | 0 => simp [pairLogs]
    | j + 1 =>
      simp only [pairLogs, List.getD_cons_succ]
      exact ih p j (by simpa using hi)

theorem pairLogs_replicate (c : ℝ) (hc : 0 < c) (m : ℕ) :
    pairLogs c (List.replicate m c) = List.replicate m 0 := by
  induction m with
  | zero => rfl
  | succ k ih =>
    simp [List.replicate_succ, pairLogs, ih, div_self (ne_of_gt hc)]

theorem logReturnsAux_ok (prev : ℝ) (rest : List ℝ)
    (h : ∀ p ∈ prev :: rest, 0 < p) :
    logReturnsAux prev rest = .ok (pairLogs prev rest) := by
  induction rest generalizing prev with
  | nil => rfl
  | cons p rest ih =>
    have hprev : 0 < prev := h prev (by simp)
    have hp : 0 < p := h p (by simp)
    rw [logReturnsAux, if_neg (by push_neg; constructor <;> linarith)]
    rw [ih p (by intro q hq; exact h q (List.mem_cons_of_mem prev hq))]
    rfl

theorem logReturnsAux_error (prev : ℝ) (rest : List ℝ) (hne : rest ≠ [])
    (h : ∃ p ∈ prev :: rest, p ≤ 0) :
    logReturnsAux prev rest = .error "Prices must be positive" := by
  induction rest generalizing prev with
  | nil => exact absurd rfl hne
  | cons p rest ih =>
    by_cases hprev : prev ≤ 0
    · rw [logReturnsAux, if_pos (Or.inl hprev)]
    · by_cases hp : p ≤ 0
      · rw [logReturnsAux, if_pos (Or.inr hp)]
      · rw [logReturnsAux, if_neg (by push_neg; constructor <;> linarith [not_le.mp hprev, not_le.mp hp])]
        have hmem : ∃ q ∈ rest, q ≤ 0 := by
          obtain ⟨q, hq, hqle⟩ := h
          simp only [List.mem_cons] at hq
          rcases hq with rfl | rfl | hq
          · exact absurd hqle hprev
          · exact absurd hqle hp
          · exact ⟨q, hq, hqle⟩
        obtain ⟨q, hq, hqle⟩ := hmem
        rw [ih p (List.ne_nil_of_mem hq) ⟨q, List.mem_cons_of_mem p hq, hqle⟩]
        rfl

theorem calculateLogReturns_ok (prices : List ℝ) (h2 : 2 ≤ prices.length)
    (hpos : ∀ p ∈ prices, 0 < p) :
    ∃ rs, calculateLogReturns prices = .ok rs ∧
      rs.length = prices.length - 1 ∧
      ∀ i < rs.length,
        rs.getD i 0 = Real.log (prices.getD (i + 1) 0 / prices.getD i 0) := by
  match prices with
  | [] => simp at h2
  | [_] => simp at h2
  | prev :: p :: rest =>
    refine ⟨pairLogs prev (p :: rest), ?_, ?_, ?_⟩
    · exact logReturnsAux_ok prev (p :: rest) hpos
    · simp [pairLogs_length]
    · intro i hi
      rw [pairLogs_length] at hi
      exact pairLogs_getD prev (p :: rest) i hi

theorem calculateLogReturns_replicate (n : ℕ) (c : ℝ) (hc : 0 < c) (h2 : 2 ≤ n) :
    calculateLogReturns (List.replicate n c) = .ok (List.replicate (n - 1) 0) := by
  match n, h2 with
  | m + 2, _ =>
    show calculateLogReturns (c :: List.replicate (m + 1) c) = _
    show logReturnsAux c (List.replicate (m + 1) c) = _
    rw [logReturnsAux_ok c _ (by intro p hp; rcases List.mem_cons.mp hp with rfl | hp
                                 · exact hc
                                 · rw [List.eq_of_mem_replicate hp]; exact hc)]
    rw [pairLogs_replicate c hc (m + 1)]
    rfl

theorem calculateLogReturns_error_nonpos (prices : List ℝ) (h2 : 2 ≤ prices.length)
    (h : ∃ p ∈ prices, p ≤ 0) :
    calculateLogReturns prices = .error "Prices must be positive" := by
  match prices with
  | [] => simp at h2
  | [_] => simp at h2
  | prev :: p :: rest => exact logReturnsAux_error prev (p :: rest) (by simp) h

theorem calculateLogReturns_error_short (prices : List ℝ) (h : prices.length < 2) :
    calculateLogReturns prices = .error "Need at least 2 price points to calculate returns" := by
  match prices with
  | [] => rfl
  | [_] => rfl
  | _ :: _ :: _ => simp at h; omega

end VolatilityCalculator

/-! ### Generic helper lemmas -/

theorem exceptBind_ok {ε α β : Type} (a : α) (f : α → Except ε β) :
    (Except.ok a >>= f) = f a := rfl

theorem exceptBind_error {ε α β : Type} (e : ε) (f : α → Except ε β) :
    ((Except.error e : Except ε α) >>= f) = .error e := rfl

theorem getD_map_of_lt {α β : Type} (f : α → β) (l : List α) (a : α) (b : β) :
    ∀ j < l.length, (l.map f).getD j b = f (l.getD j a) := by
  induction l with
  | nil => intro j hj; simp at hj
  | cons x l ih =>
    intro j hj
    match j with
    | 0 => rfl
    | k + 1 =>
      simp only [List.map_cons, List.getD_cons_succ]
      exact ih k (by simpa using hj)

theorem getLastD_mem {α : Type} (l : List α) (d : α) (h : l ≠ []) :
    l.getLastD d ∈ l := by
  induction l generalizing d with
  | nil => exact absurd rfl h
  | cons a l ih =>
    rw [List.getLastD_cons]
    match l with
    | [] => simp [List.getLastD]
    | b :: l => exact List.mem_cons_of_mem a (ih a (by simp))

theorem getLastD_replicate_zero (n : ℕ) :
    (List.replicate n (0 : ℝ)).getLastD 0 = 0 := by
  match n with
  | 0 => rfl
  | m + 1 =>
    have := getLastD_mem (List.replicate (m + 1) (0 : ℝ)) 0 (by simp)
    exact List.eq_of_mem_replicate this

namespace DVOLCalculator

/-! ### The index list and the rolling-window loop -/

theorem idxFrom_length (s n : ℕ) : (idxFrom s n).length = n := by
  induction n generalizing s with
  | zero => rfl
  | succ k ih => simp [idxFrom, ih]

theorem idxFrom_getD (s n : ℕ) : ∀ j < n, (idxFrom s n).getD j 0 = s + j := by
  induction n generalizing s with
  | zero => intro j hj; simp at hj
  | succ k ih =>
    intro j hj
    match j with
    | 0 => simp [idxFrom]
    | m + 1 =>
      show (idxFrom (s + 1) k).getD m 0 = s + (m + 1)
      rw [ih (s + 1) m (by omega)]
      omega

theorem mem_idxFrom {s n i : ℕ} : i ∈ idxFrom s n ↔ s ≤ i ∧ i < s + n := by
  induction n generalizing s with
  | zero => simp [idxFrom]
  | succ k ih =>
    simp only [idxFrom, List.mem_cons, ih]
    omega

theorem rollingVols_ok_map (rs : List ℝ) (w : ℕ) (l : List ℕ) (g : ℕ → ℝ)
    (h : ∀ i ∈ l,
      VolatilityCalculator.calculateVariance ((rs.drop (i + 1 - w)).take w) = .ok (g i)) :
    rollingVols rs w l = .ok (l.map fun i => Real.sqrt (g i)) := by
  induction l with
  | nil => rfl
  | cons i l ih =>
    rw [rollingVols, h i (by simp), exceptBind_ok,
      ih fun j hj => h j (List.mem_cons_of_mem i hj), exceptBind_ok]
    rfl

theorem rollingVols_err_head (rs : List ℝ) (w : ℕ) (i : ℕ) (l : List ℕ) (e : String)
    (h : VolatilityCalculator.calculateVariance ((rs.drop (i + 1 - w)).take w) = .error e) :
    rollingVols rs w (i :: l) = .error e := by
  rw [rollingVols, h, exceptBind_error]

/-- Closed form of the `volatilities` array of `calculateSimpleDVOL`: one
sample standard deviation per window end index. -/
def simpleVolsSpec (rs : List ℝ) (w : ℕ) : List ℝ :=
  (idxFrom (w - 1) (rs.length - w + 1)).map fun i =>
    Real.sqrt (sampleVar ((rs.drop (i + 1 - w)).take w))

theorem simpleVolsSpec_length (rs : List ℝ) (w : ℕ) :
    (simpleVolsSpec rs w).length = rs.length - w + 1 := by
  simp [simpleVolsSpec, idxFrom_length]

theorem simpleVolsSpec_getD (rs : List ℝ) (w : ℕ) (hw : 1 ≤ w) :
    ∀ j < rs.length - w + 1,
      (simpleVolsSpec rs w).getD j 0 = Real.sqrt (sampleVar ((rs.drop j).take w)) := by
  intro j hj
  rw [simpleVolsSpec,
    getD_map_of_lt _ _ 0 _ j (by rw [idxFrom_length]; exact hj),
    idxFrom_getD _ _ j hj]
  have hidx : w - 1 + j + 1 - w = j := by omega
  rw [hidx]

theorem window_length (rs : List ℝ) (w i : ℕ) (_hwlen : w ≤ rs.length)
    (hi : i < rs.length) (hwi : w ≤ i + 1) :
    ((rs.drop (i + 1 - w)).take w).length = w := by
  rw [List.length_take, List.length_drop]
  omega

/-! ### Stability scoring -/

theorem stabilityScore_bounds (std m c : ℝ) (h : stabilityScore std m = some c) :
    0 ≤ c ∧ c ≤ 100 := by
  rw [stabilityScore] at h
  by_cases hm : m = 0
  · rw [if_pos hm] at h
    by_cases hs : std = 0
    · rw [if_pos hs] at h
      exact absurd h (by simp)
    · rw [if_neg hs] at h
      by_cases hpos : 0 < std
      · rw [if_pos hpos] at h
        obtain rfl : (0 : ℝ) = c := by simpa using h
        norm_num
      · rw [if_neg hpos] at h
        obtain rfl : (100 : ℝ) = c := by simpa using h
        norm_num
  · rw [if_neg hm] at h
    obtain rfl : max 0 (min 100 (100 - std / m * 100)) = c := by simpa using h
    refine ⟨le_max_left 0 _, ?_⟩
    exact max_le (by norm_num) (min_le_left _ _)

theorem stabilityScore_zero_zero : stabilityScore 0 0 = none := by
  rw [stabilityScore, if_pos rfl, if_pos rfl]

theorem calculateStability_small (l : List ℝ) (h : l.length < 2) :
    calculateStability l = .ok (some 50) := by
  rw [calculateStability, if_pos h]

theorem calculateStability_eq (l : List ℝ) (h : 2 ≤ l.length) :
    calculateStability l =
      .ok (stabilityScore (Real.sqrt (sampleVar l)) (meanR l)) := by
  rw [calculateStability, if_neg (by omega),
    VolatilityCalculator.calculateMean_ok l (by intro he; simp [he] at h),
    exceptBind_ok, VolatilityCalculator.calculateStandardDeviation_ok l h, exceptBind_ok]

/-! ### EWMA recursion -/

theorem ewmaVarsAux_length (lambda v : ℝ) (rest : List ℝ) :
    (ewmaVarsAux lambda v rest).length = rest.length := by
  induction rest generalizing v with
  | nil => rfl
  | cons r rest ih => simp [ewmaVarsAux, ih]

theorem ewmaVariances_length (lambda : ℝ) (rs : List ℝ) :
    (ewmaVariances lambda rs).length = rs.length := by
  match rs with
  | [] => rfl
  | r :: rest => simp [ewmaVariances, ewmaVarsAux_length]

theorem ewmaVarsAux_getD_zero (lambda v : ℝ) (rest : List ℝ) (h : rest ≠ []) :
    (ewmaVarsAux lambda v rest).getD 0 0 =
      lambda * v + (1 - lambda) * (rest.getD 0 0) ^ 2 := by
  match rest with
  | [] => exact absurd rfl h
  | r :: rest => rfl

theorem ewmaVarsAux_step (lambda : ℝ) (rest : List ℝ) :
    ∀ (v : ℝ) (t : ℕ), t + 1 < rest.length →
      (ewmaVarsAux lambda v rest).getD (t + 1) 0 =
        lambda * (ewmaVarsAux lambda v rest).getD t 0 +
          (1 - lambda) * (rest.getD (t + 1) 0) ^ 2 := by
  induction rest with
  | nil => intro v t ht; simp at ht
  | cons r rest ih =>
    intro v t ht
    match t with
    | 0 =>
      show (ewmaVarsAux lambda _ rest).getD 0 0 = _
      rw [ewmaVarsAux_getD_zero lambda _ rest
        (by intro he; rw [he] at ht; simp at ht)]
      rfl
    | s + 1 =>
      show (ewmaVarsAux lambda _ rest).getD (s + 1) 0 = _
      rw [ih _ s (by simpa using ht)]
      rfl

theorem ewmaVariances_getD_zero (lambda : ℝ) (rs : List ℝ) (h : rs ≠ []) :
    (ewmaVariances lambda rs).getD 0 0 = (rs.getD 0 0) ^ 2 := by
  match rs with
  | [] => exact absurd rfl h
  | r :: rest => rfl

theorem ewmaVariances_step (lambda : ℝ) (rs : List ℝ) :
    ∀ t, t + 1 < rs.length →
      (ewmaVariances lambda rs).getD (t + 1) 0 =
        lambda * (ewmaVariances lambda rs).getD t 0 +
          (1 - lambda) * (rs.getD (t + 1) 0) ^ 2 := by
  match rs with
  | [] => intro t ht; simp at ht
  | r :: rest =>
    intro t ht
    match t with
    | 0 =>
      show (ewmaVarsAux lambda (r ^ 2) rest).getD 0 0 = _
      rw [ewmaVarsAux_getD_zero lambda _ rest
        (by intro he; rw [he] at ht; simp at ht)]
      rfl
    | s + 1 =>
      show (ewmaVarsAux lambda (r ^ 2) rest).getD (s + 1) 0 = _
      rw [ewmaVarsAux_step lambda rest _ s (by simpa using ht)]
      rfl

theorem ewmaVarsAux_zero (lambda : ℝ) (k : ℕ) :
    ewmaVarsAux lambda 0 (List.replicate k 0) = List.replicate k 0 := by
  induction k with
  | zero => rfl
  | succ n ih =>
    show ewmaVarsAux lambda 0 (0 :: List.replicate n 0) = _
    have hz : lambda * 0 + (1 - lambda) * (0 : ℝ) ^ 2 = 0 := by ring
    simp only [ewmaVarsAux, hz, ih]
    rfl

theorem ewmaVariances_replicate_zero (lambda : ℝ) (m : ℕ) :
    ewmaVariances lambda (List.replicate m 0) = List.replicate m 0 := by
  match m with
  | 0 => rfl
  | k + 1 =>
    show ewmaVariances lambda (0 :: List.replicate k 0) = _
    have hz : (0 : ℝ) ^ 2 = 0 := by ring
    simp only [ewmaVariances, hz, ewmaVarsAux_zero]
    rfl

/-! ### GARCH recursion -/

theorem garchSteps_fst_length (omega alpha beta : ℝ) (prev v : ℝ) (rest : List ℝ) :
    (garchSteps omega alpha beta prev v rest).1.length = rest.length := by
  induction rest generalizing prev v with
  | nil => rfl
  | cons r rest ih => simp [garchSteps, ih]

theorem garchSteps_snd_length (omega alpha beta : ℝ) (prev v : ℝ) (rest : List ℝ) :
    (garchSteps omega alpha beta prev v rest).2.length = rest.length := by
  induction rest generalizing prev v with
  | nil => rfl
  | cons r rest ih => simp [garchSteps, ih]

theorem garchSteps_fst_ge (omega alpha beta : ℝ) (homega : 0 < omega)
    (halpha : 0 ≤ alpha) (hbeta : 0 ≤ beta) :
    ∀ (rest : List ℝ) (prev v : ℝ), 0 ≤ v →
      ∀ x ∈ (garchSteps omega alpha beta prev v rest).1, omega ≤ x := by
  intro rest
  induction rest with
  | nil => intro prev v _ x hx; simp [garchSteps] at hx
  | cons r rest ih =>
    intro prev v hv x hx
    have hstep : omega ≤ omega + alpha * prev ^ 2 + beta * v := by
      have h1 : 0 ≤ alpha * prev ^ 2 := mul_nonneg halpha (sq_nonneg prev)
      have h2 : 0 ≤ beta * v := mul_nonneg hbeta hv
      linarith
    simp only [garchSteps, List.mem_cons] at hx
    rcases hx with rfl | hx
    · exact hstep
    · exact ih r (omega + alpha * prev ^ 2 + beta * v) (le_trans (le_of_lt homega) hstep) x hx

theorem garchSteps_snd_replicate (omega alpha beta : ℝ) (k : ℕ) :
    ∀ (prev v : ℝ),
      (garchSteps omega alpha beta prev v (List.replicate k 0)).2 = List.replicate k 0 := by
  induction k with
  | zero => intro prev v; rfl
  | succ n ih =>
    intro prev v
    show (garchSteps omega alpha beta prev v (0 :: List.replicate n 0)).2 = _
    simp only [garchSteps, ih, zero_div]
    rfl

/-! ### Spec-side confidence outcomes -/

/-- The value `calculateStability` always succeeds with. -/
def stabilitySpec (l : List ℝ) : Option ℝ :=
  if l.length < 2 then some 50
  else stabilityScore (Real.sqrt (sampleVar l)) (meanR l)

theorem calculateStability_eq_spec (l : List ℝ) :
    calculateStability l = .ok (stabilitySpec l) := by
  by_cases h : l.length < 2
  · rw [calculateStability_small l h, stabilitySpec, if_pos h]
  · rw [calculateStability_eq l (by omega), stabilitySpec, if_neg h]

theorem stabilitySpec_bounds (l : List ℝ) (c : ℝ) (h : stabilitySpec l = some c) :
    0 ≤ c ∧ c ≤ 100 := by
  rw [stabilitySpec] at h
  by_cases hl : l.length < 2
  · rw [if_pos hl] at h
    obtain rfl : (50 : ℝ) = c := by simpa using h
    norm_num
  · rw [if_neg hl] at h
    exact stabilityScore_bounds _ _ c h

/-- The `qualityScore` of `calculateGARCHConfidence` (dvol.ts line 252). -/
def qualityScoreSpec (residuals : List ℝ) : ℝ :=
  max 0 (100 - (|meanR residuals| + |Real.sqrt (sampleVar residuals) - 1|) * 50)

theorem qualityScoreSpec_bounds (residuals : List ℝ) :
    0 ≤ qualityScoreSpec residuals ∧ qualityScoreSpec residuals ≤ 100 := by
  constructor
  · exact le_max_left 0 _
  · apply max_le (by norm_num)
    have : 0 ≤ (|meanR residuals| + |Real.sqrt (sampleVar residuals) - 1|) * 50 := by
      positivity
    linarith

theorem calculateGARCHConfidence_ok (residuals variances : List ℝ)
    (h : 2 ≤ residuals.length) :
    calculateGARCHConfidence residuals variances =
      .ok ((stabilitySpec variances).map fun v => (qualityScoreSpec residuals + v) / 2) := by
  rw [calculateGARCHConfidence, if_neg (by omega),
    VolatilityCalculator.calculateMean_ok _ (by intro he; simp [he] at h), exceptBind_ok,
    VolatilityCalculator.calculateStandardDeviation_ok _ h, exceptBind_ok,
    calculateStability_eq_spec, exceptBind_ok]
  rfl

/-! ### Method-level characterizations -/

theorem calculateSimpleDVOL_ok (pd : List PriceData) (w : ℕ) (A : ℝ) (rs : List ℝ)
    (hw : 2 ≤ w)
    (hrs : VolatilityCalculator.calculateLogReturns (pd.map PriceData.price) = .ok rs)
    (hlen : w + 1 ≤ rs.length) :
    calculateSimpleDVOL pd w A =
      .ok ⟨meanR (simpleVolsSpec rs w) * Real.sqrt A * 100,
        stabilityScore (Real.sqrt (sampleVar (simpleVolsSpec rs w)))
          (meanR (simpleVolsSpec rs w))⟩ := by
  have hvols : rollingVols rs w (idxFrom (w - 1) (rs.length - w + 1)) =
      .ok (simpleVolsSpec rs w) := by
    apply rollingVols_ok_map
    intro i hi
    obtain ⟨h1, h2⟩ := mem_idxFrom.mp hi
    apply VolatilityCalculator.calculateVariance_ok
    rw [window_length rs w i (by omega) (by omega) (by omega)]
    exact hw
  have hvlen : 2 ≤ (simpleVolsSpec rs w).length := by
    rw [simpleVolsSpec_length]
    omega
  have hvne : simpleVolsSpec rs w ≠ [] := by
    intro he
    rw [he] at hvlen
    simp at hvlen
  rw [calculateSimpleDVOL, hrs, exceptBind_ok, if_neg (by omega), hvols, exceptBind_ok,
    VolatilityCalculator.calculateMean_ok _ hvne, exceptBind_ok,
    VolatilityCalculator.calculateStandardDeviation_ok _ hvlen, exceptBind_ok,
    exceptBind_ok]

theorem calculateSimpleDVOL_insufficient (pd : List PriceData) (w : ℕ) (A : ℝ)
    (rs : List ℝ)
    (hrs : VolatilityCalculator.calculateLogReturns (pd.map PriceData.price) = .ok rs)
    (hlen : rs.length < w) :
    calculateSimpleDVOL pd w A = .error "Insufficient data for window size" := by
  rw [calculateSimpleDVOL, hrs, exceptBind_ok, if_pos hlen]

theorem calculateSimpleDVOL_window_eq (pd : List PriceData) (w : ℕ) (A : ℝ)
    (rs : List ℝ) (hw : 2 ≤ w)
    (hrs : VolatilityCalculator.calculateLogReturns (pd.map PriceData.price) = .ok rs)
    (hlen : rs.length = w) :
    calculateSimpleDVOL pd w A = .error "Need at least 2 values to calculate variance" := by
  have hvols : rollingVols rs w (idxFrom (w - 1) (rs.length - w + 1)) =
      .ok (simpleVolsSpec rs w) := by
    apply rollingVols_ok_map
    intro i hi
    obtain ⟨h1, h2⟩ := mem_idxFrom.mp hi
    apply VolatilityCalculator.calculateVariance_ok
    rw [window_length rs w i (by omega) (by omega) (by omega)]
    exact hw
  have hvlen : (simpleVolsSpec rs w).length = 1 := by
    rw [simpleVolsSpec_length]
    omega
  have hvne : simpleVolsSpec rs w ≠ [] := by
    intro he
    rw [he] at hvlen
    simp at hvlen
  rw [calculateSimpleDVOL, hrs, exceptBind_ok, if_neg (by omega), hvols, exceptBind_ok,
    VolatilityCalculator.calculateMean_ok _ hvne, exceptBind_ok,
    VolatilityCalculator.calculateStandardDeviation_err _ (by omega), exceptBind_error]

/-- The `recentVariances` slice of `calculateEWMADVOL` (dvol.ts line 149). -/
def recentVariancesSpec (lambda : ℝ) (rs : List ℝ) : List ℝ :=
  (ewmaVariances lambda rs).drop
    ((ewmaVariances lambda rs).length - min 10 (ewmaVariances lambda rs).length)

theorem recentVariancesSpec_length (lambda : ℝ) (rs : List ℝ) :
    (recentVariancesSpec lambda rs).length = min 10 rs.length := by
  rw [recentVariancesSpec, List.length_drop, ewmaVariances_length]
  omega

theorem calculateEWMADVOL_ok (pd : List PriceData) (lambda A : ℝ) (rs : List ℝ)
    (hl1 : 0 < lambda) (hl2 : lambda < 1)
    (hrs : VolatilityCalculator.calculateLogReturns (pd.map PriceData.price) = .ok rs)
    (hlen : 2 ≤ rs.length) :
    calculateEWMADVOL pd lambda A =
      .ok ⟨Real.sqrt ((ewmaVariances lambda rs).getLastD 0 * A) * 100,
        (stabilitySpec (recentVariancesSpec lambda rs)).map fun c => max 0 (min 100 c)⟩ := by
  rw [calculateEWMADVOL, if_neg (by push_neg; constructor <;> linarith)]
  simp only [hrs, exceptBind_ok]
  rw [if_neg (by omega), calculateStability_eq_spec, exceptBind_ok]
  rfl

theorem calculateGARCHDVOL_ok (pd : List PriceData) (g : GARCHParams) (A : ℝ)
    (rs : List ℝ) (homega : 0 < g.omega) (halpha : 0 ≤ g.alpha) (hbeta : 0 ≤ g.beta)
    (hab : g.alpha + g.beta < 1)
    (hrs : VolatilityCalculator.calculateLogReturns (pd.map PriceData.price) = .ok rs)
    (hlen : 10 ≤ rs.length) :
    calculateGARCHDVOL pd g A =
      .ok ⟨Real.sqrt ((sampleVar rs ::
            (garchSteps g.omega g.alpha g.beta (rs.headD 0) (sampleVar rs) rs.tail).1).getLastD
            0 * A) * 100,
        (stabilitySpec (sampleVar rs ::
            (garchSteps g.omega g.alpha g.beta (rs.headD 0) (sampleVar rs) rs.tail).1)).map
          fun v =>
            (qualityScoreSpec
              (garchSteps g.omega g.alpha g.beta (rs.headD 0) (sampleVar rs) rs.tail).2 + v) /
              2⟩ := by
  have hres : 2 ≤ (garchSteps g.omega g.alpha g.beta (rs.headD 0) (sampleVar rs) rs.tail).2.length := by
    rw [garchSteps_snd_length, List.length_tail]
    omega
  rw [calculateGARCHDVOL,
    if_neg (by push_neg; refine ⟨by linarith, by linarith, by linarith, by linarith⟩)]
  simp only [hrs, exceptBind_ok]
  rw [if_neg (by omega)]
  simp only [VolatilityCalculator.calculateVariance_ok rs (by omega : 2 ≤ rs.length),
    exceptBind_ok]
  rw [calculateGARCHConfidence_ok _ _ hres, exceptBind_ok]

theorem validateInput_ok (pd : List PriceData) (method : DVOLMethod)
    (hlen : 2 ≤ pd.length) (hmin : minDataPoints method ≤ pd.length)
    (hpos : ∀ d ∈ pd, 0 < d.price) :
    validateInput pd method = .ok () := by
  rw [validateInput, if_neg (by omega), if_neg (by omega), if_neg (by omega), if_neg]
  simp only [ne_eq, List.length_eq_zero, not_not, List.filter_eq_nil_iff]
  intro d hd
  simpa using not_le.mpr (hpos d hd)

theorem exceptBind_ok_map {ε α β : Type} (e : Except ε α) (f : α → β) :
    (e >>= fun a => Except.ok (f a)) = e.map f := by
  cases e <;> rfl

theorem calculateDVOL_unfold (pd : List PriceData) (method : DVOLMethod)
    (options : DVOLOptions) (now : ℤ)
    (hv : validateInput pd method = .ok ()) :
    calculateDVOL pd method options now =
      (match method with
        | .simple =>
          calculateSimpleDVOL pd (options.windowSize.getD DEFAULT_WINDOW_SIZE)
            (options.annualizationFactor.getD ANNUALIZATION_FACTOR)
        | .ewma =>
          calculateEWMADVOL pd (options.ewmaLambda.getD DEFAULT_EWMA_LAMBDA)
            (options.annualizationFactor.getD ANNUALIZATION_FACTOR)
        | .garch =>
          calculateGARCHDVOL pd (options.garchParams.getD DEFAULT_GARCH_PARAMS)
            (options.annualizationFactor.getD ANNUALIZATION_FACTOR)).map
        fun out : MethodResult =>
          (⟨out.dvol, calculateDVOLIndex out.dvol, out.confidence, method, pd.length,
            now⟩ : DVOLResult) := by
  rw [calculateDVOL, hv, exceptBind_ok]
  cases method
  case simple =>
    cases h : calculateSimpleDVOL pd (options.windowSize.getD DEFAULT_WINDOW_SIZE)
        (options.annualizationFactor.getD ANNUALIZATION_FACTOR) with
    | error e => simp only [h, exceptBind_error, Except.map]
    | ok out => simp only [h, exceptBind_ok, Except.map]
  case ewma =>
    cases h : calculateEWMADVOL pd (options.ewmaLambda.getD DEFAULT_EWMA_LAMBDA)
        (options.annualizationFactor.getD ANNUALIZATION_FACTOR) with
    | error e => simp only [h, exceptBind_error, Except.map]
    | ok out => simp only [h, exceptBind_ok, Except.map]
  case garch =>
    cases h : calculateGARCHDVOL pd (options.garchParams.getD DEFAULT_GARCH_PARAMS)
        (options.annualizationFactor.getD ANNUALIZATION_FACTOR) with
    | error e => simp only [h, exceptBind_error, Except.map]
    | ok out => simp only [h, exceptBind_ok, Except.map]

end DVOLCalculator

/-! ### Sums over `List.range` as `Finset` sums -/

theorem sum_map_range (n : ℕ) (f : ℕ → ℝ) :
    ((List.range n).map f).sum = ∑ i in Finset.range n, f i := by
  induction n with
  | zero => simp
  | succ k ih =>
    rw [List.range_succ, List.map_append, List.sum_append, Finset.sum_range_succ, ih]
    simp

/-! ## Claim C8 -/

/-- Claim C8: for every price list with at least 2 elements, all positive,
`calculateLogReturns` succeeds with a list of length exactly `n - 1` whose
`i`-th element is `ln(price_{i+1} / price_i)`; with fewer than 2 prices it
fails with the insufficient-data error. -/
theorem claim8_log_returns (prices : List ℝ) :
    (2 ≤ prices.length → (∀ p ∈ prices, 0 < p) →
      ∃ rs, VolatilityCalculator.calculateLogReturns prices = .ok rs ∧
        rs.length = prices.length - 1 ∧
        ∀ i < rs.length,
          rs.getD i 0 = Real.log (prices.getD (i + 1) 0 / prices.getD i 0)) ∧
    (prices.length < 2 →
      VolatilityCalculator.calculateLogReturns prices =
        .error "Need at least 2 price points to calculate returns") := by
  constructor
  · intro h2 hpos
    exact VolatilityCalculator.calculateLogReturns_ok prices h2 hpos
  · intro h
    exact VolatilityCalculator.calculateLogReturns_error_short prices h

/-- Witness for C8 at the concrete price list `[1, 2]`. -/
theorem claim8_log_returns_witness :
    2 ≤ ([(1 : ℝ), 2]).length ∧
    (∃ rs, VolatilityCalculator.calculateLogReturns [(1 : ℝ), 2] = .ok rs ∧
      rs.length = ([(1 : ℝ), 2]).length - 1 ∧
      ∀ i < rs.length,
        rs.getD i 0 =
          Real.log (([(1 : ℝ), 2]).getD (i + 1) 0 / ([(1 : ℝ), 2]).getD i 0)) := by
  refine ⟨by norm_num, (claim8_log_returns [(1 : ℝ), 2]).1 (by norm_num) ?_⟩
  intro p hp
  simp only [List.mem_cons, List.not_mem_nil, or_false] at hp
  rcases hp with rfl | rfl <;> norm_num

/-! ## Claim C5 -/

/-- Claim C5 counterexample: a `NaN` (hence non-finite) price is not
rejected by `calculateLogReturns`: on the prices `[1, NaN]` the function
succeeds, returning `[NaN]`, instead of failing with the invalid-price
error as the claim requires. -/
theorem claim5_counterexample :
    VolatilityCalculator.calculateLogReturnsJ [JVal.fin 1, JVal.nan] = .ok [JVal.nan] := by
  show VolatilityCalculator.logReturnsAuxJ (JVal.fin 1) [JVal.nan] = _
  rw [VolatilityCalculator.logReturnsAuxJ,
    if_neg (by simp [JVal.leZero])]
  show Except.ok [JVal.log (JVal.div JVal.nan (JVal.fin 1))] = _
  rfl

/-- Claim C5 amended: `calculateLogReturns` (and hence `calculateMetrics`)
fails with the invalid-price error whenever some price is non-positive, and
succeeds whenever all prices are positive — but it does not reject
non-finite prices: its guard is `price <= 0`, which a `NaN` price fails,
so `NaN` flows through (see `claim5_counterexample`; only `calculateDVOL`'s
`validateInput` checks `Number.isFinite`). -/
theorem claim5_amended (prices : List ℝ) :
    (prices.length < 2 →
      VolatilityCalculator.calculateLogReturns prices =
        .error "Need at least 2 price points to calculate returns") ∧
    (2 ≤ prices.length → (∃ p ∈ prices, p ≤ 0) →
      VolatilityCalculator.calculateLogReturns prices =
        .error "Prices must be positive") ∧
    (2 ≤ prices.length → (∀ p ∈ prices, 0 < p) →
      ∃ rs, VolatilityCalculator.calculateLogReturns prices = .ok rs) := by
  refine ⟨VolatilityCalculator.calculateLogReturns_error_short prices, ?_, ?_⟩
  · intro h2 hex
    exact VolatilityCalculator.calculateLogReturns_error_nonpos prices h2 hex
  · intro h2 hpos
    obtain ⟨rs, hrs, -, -⟩ :=
      VolatilityCalculator.calculateLogReturns_ok prices h2 hpos
    exact ⟨rs, hrs⟩

/-- Witness for the amended C5 at the concrete price list `[-1, 2]`. -/
theorem claim5_amended_witness :
    VolatilityCalculator.calculateLogReturns [(-1 : ℝ), 2] =
      .error "Prices must be positive" :=
  (claim5_amended [(-1 : ℝ), 2]).2.1 (by norm_num)
    ⟨-1, by simp, by norm_num⟩

/-! ## Claim C9 -/

/-- Claim C9: for `lag < n`, the autocorrelation is the quotient whose
numerator sums `(r_i - mean)(r_{i+lag} - mean)` over `i = 0 .. n-lag-1`
only, while the denominator sums `(r_i - mean)^2` over all `n` indices,
and it is `0` when the denominator is `0`. -/
theorem claim9_autocorrelation (returns : List ℝ) (lag : ℕ)
    (h : lag < returns.length) :
    DVOLCalculator.calculateAutocorrelation returns lag =
      .ok
        (if (∑ i in Finset.range returns.length,
            (returns.getD i 0 - meanR returns) ^ 2) = 0 then 0
          else
            (∑ i in Finset.range (returns.length - lag),
              (returns.getD i 0 - meanR returns) *
                (returns.getD (i + lag) 0 - meanR returns)) /
            (∑ i in Finset.range returns.length,
              (returns.getD i 0 - meanR returns) ^ 2)) := by
  rw [DVOLCalculator.calculateAutocorrelation, if_neg (by omega),
    VolatilityCalculator.calculateMean_ok returns
      (by intro he; rw [he] at h; simp at h),
    exceptBind_ok]
  simp only [sum_map_range]

/-- Witness for C9 at the concrete returns `[1, 2, 4]` with lag `1`. -/
theorem claim9_autocorrelation_witness :
    DVOLCalculator.calculateAutocorrelation [(1 : ℝ), 2, 4] 1 =
      .ok
        (if (∑ i in Finset.range ([(1 : ℝ), 2, 4]).length,
            (([(1 : ℝ), 2, 4]).getD i 0 - meanR [(1 : ℝ), 2, 4]) ^ 2) = 0 then 0
          else
            (∑ i in Finset.range (([(1 : ℝ), 2, 4]).length - 1),
              (([(1 : ℝ), 2, 4]).getD i 0 - meanR [(1 : ℝ), 2, 4]) *
                (([(1 : ℝ), 2, 4]).getD (i + 1) 0 - meanR [(1 : ℝ), 2, 4])) /
            (∑ i in Finset.range ([(1 : ℝ), 2, 4]).length,
              (([(1 : ℝ), 2, 4]).getD i 0 - meanR [(1 : ℝ), 2, 4]) ^ 2)) :=
  claim9_autocorrelation [(1 : ℝ), 2, 4] 1 (by norm_num)

/-! ## Claim C10 -/

/-- Claim C10: on any valid two-point price series (one log return) the
diagnostics operation fails: autocorrelation and heteroskedasticity
short-circuit to `0` for a single return, but skewness needs the standard
deviation of the singleton returns list, and `calculateVariance` throws for
fewer than 2 values. -/
theorem claim10_diagnostics_two_points (pd : List PriceData) (h2 : pd.length = 2)
    (hpos : ∀ d ∈ pd, 0 < d.price) (method : DVOLMethod) (options : DVOLOptions) :
    DVOLCalculator.calculateDiagnostics pd method options =
      .error "Need at least 2 values to calculate variance" := by
  obtain ⟨rs, hrs, hlen, -⟩ :=
    VolatilityCalculator.calculateLogReturns_ok (pd.map PriceData.price)
      (by simp [h2])
      (by intro p hp
          simp only [List.mem_map] at hp
          obtain ⟨d, hd, rfl⟩ := hp
          exact hpos d hd)
  have hlen1 : rs.length = 1 := by
    rw [hlen, List.length_map, h2]
  have hne : rs ≠ [] := by
    intro he
    rw [he] at hlen1
    simp at hlen1
  have hauto : DVOLCalculator.calculateAutocorrelation rs 1 = .ok 0 := by
    rw [DVOLCalculator.calculateAutocorrelation, if_pos (by omega)]
  have hhet : DVOLCalculator.calculateHeteroskedasticity rs = .ok 0 := by
    rw [DVOLCalculator.calculateHeteroskedasticity,
      DVOLCalculator.calculateAutocorrelation, if_pos (by simp [hlen1])]
  have hskew : DVOLCalculator.calculateSkewness rs =
      .error "Need at least 2 values to calculate variance" := by
    rw [DVOLCalculator.calculateSkewness,
      VolatilityCalculator.calculateMean_ok rs hne, exceptBind_ok,
      VolatilityCalculator.calculateStandardDeviation_err rs (by omega),
      exceptBind_error]
  rw [DVOLCalculator.calculateDiagnostics]
  simp only [hrs, exceptBind_ok]
  rw [hauto, exceptBind_ok, hhet, exceptBind_ok, hskew, exceptBind_error]

/-- Witness for C10 at the concrete two-point series `[(0,1), (0,2)]`. -/
theorem claim10_diagnostics_witness :
    DVOLCalculator.calculateDiagnostics [⟨0, 1⟩, ⟨0, 2⟩] .simple {} =
      .error "Need at least 2 values to calculate variance" := by
  apply claim10_diagnostics_two_points
  · rfl
  · intro d hd
    simp only [List.mem_cons, List.not_mem_nil, or_false] at hd
    rcases hd with rfl | rfl <;> norm_num

/-! ### Constant-series helper lemmas -/

namespace DVOLCalculator

theorem simpleVolsSpec_replicate_zero (m w : ℕ) (hw : 1 ≤ w) (hwm : w ≤ m) :
    simpleVolsSpec (List.replicate m 0) w = List.replicate (m - w + 1) 0 := by
  rw [List.eq_replicate_iff]
  constructor
  · rw [simpleVolsSpec_length, List.length_replicate]
  · intro b hb
    rw [simpleVolsSpec, List.mem_map] at hb
    obtain ⟨i, hi, rfl⟩ := hb
    rw [List.length_replicate] at hi
    obtain ⟨h1, h2⟩ := mem_idxFrom.mp hi
    rw [List.drop_replicate, List.take_replicate]
    have hmin : min w (m - (i + 1 - w)) = w := by omega
    rw [hmin, VolatilityCalculator.sampleVar_replicate w 0 (by omega), Real.sqrt_zero]

/-- On a constant positive price series of `n ≥ w + 2` points the simple
method succeeds with `dvol = 0` and a `NaN` confidence (the vols are all
`0`, so their mean and stdev are both `0` and the coefficient of variation
is `0/0`). -/
theorem simpleDVOL_const (n w : ℕ) (c A : ℝ) (hc : 0 < c) (hw : 2 ≤ w)
    (hn : w + 2 ≤ n) :
    calculateSimpleDVOL (List.replicate n (⟨0, c⟩ : PriceData)) w A = .ok ⟨0, none⟩ := by
  have hrs : VolatilityCalculator.calculateLogReturns
      ((List.replicate n (⟨0, c⟩ : PriceData)).map PriceData.price) =
      .ok (List.replicate (n - 1) 0) := by
    rw [List.map_replicate]
    exact VolatilityCalculator.calculateLogReturns_replicate n c hc (by omega)
  have h := calculateSimpleDVOL_ok (List.replicate n (⟨0, c⟩ : PriceData)) w A
    (List.replicate (n - 1) 0) hw hrs (by rw [List.length_replicate]; omega)
  rw [h]
  have hvols : simpleVolsSpec (List.replicate (n - 1) (0 : ℝ)) w =
      List.replicate (n - 1 - w + 1) 0 :=
    simpleVolsSpec_replicate_zero (n - 1) w (by omega) (by omega)
  rw [hvols, VolatilityCalculator.meanR_replicate _ 0 (by omega),
    VolatilityCalculator.sampleVar_replicate _ 0 (by omega), Real.sqrt_zero,
    stabilityScore_zero_zero]
  have hz : (0 : ℝ) * Real.sqrt A * 100 = 0 := by ring
  rw [hz]

/-- On a constant positive price series of `n ≥ 3` points the EWMA method
succeeds with `dvol = 0` and a `NaN` confidence. -/
theorem ewmaDVOL_const (n : ℕ) (c lambda A : ℝ) (hc : 0 < c) (hl1 : 0 < lambda)
    (hl2 : lambda < 1) (hn : 3 ≤ n) :
    calculateEWMADVOL (List.replicate n (⟨0, c⟩ : PriceData)) lambda A = .ok ⟨0, none⟩ := by
  have hrs : VolatilityCalculator.calculateLogReturns
      ((List.replicate n (⟨0, c⟩ : PriceData)).map PriceData.price) =
      .ok (List.replicate (n - 1) 0) := by
    rw [List.map_replicate]
    exact VolatilityCalculator.calculateLogReturns_replicate n c hc (by omega)
  rw [calculateEWMADVOL_ok (List.replicate n (⟨0, c⟩ : PriceData)) lambda A
    (List.replicate (n - 1) 0) hl1 hl2 hrs (by rw [List.length_replicate]; omega)]
  have hrecent : recentVariancesSpec lambda (List.replicate (n - 1) (0 : ℝ)) =
      List.replicate (min 10 (n - 1)) 0 := by
    rw [recentVariancesSpec, ewmaVariances_replicate_zero, List.drop_replicate,
      List.length_replicate]
    congr 1
    omega
  rw [ewmaVariances_replicate_zero, getLastD_replicate_zero, hrecent]
  have hstab : stabilitySpec (List.replicate (min 10 (n - 1)) (0 : ℝ)) = none := by
    rw [stabilitySpec, if_neg (by rw [List.length_replicate]; omega),
      VolatilityCalculator.sampleVar_replicate _ 0 (by omega),
      VolatilityCalculator.meanR_replicate _ 0 (by omega), Real.sqrt_zero,
      stabilityScore_zero_zero]
  rw [hstab]
  have hz1 : (0 : ℝ) * A = 0 := by ring
  rw [hz1, Real.sqrt_zero]
  have hz2 : (0 : ℝ) * 100 = 0 := by ring
  rw [hz2]
  rfl

end DVOLCalculator

/-! ## Claim C6 -/

/-- Claim C6: for every valid EWMA input with `lambda ∈ (0,1)` and at least
2 log returns, the method succeeds, the variance series satisfies
`var_0 = returns[0]^2` and
`var_t = lambda*var_{t-1} + (1-lambda)*returns[t]^2` for `t ≥ 1`, and the
returned dvol is `sqrt(var_last * annualizationFactor) * 100`. -/
theorem claim6_ewma_recurrence (pd : List PriceData) (lambda A : ℝ) (rs : List ℝ)
    (hl1 : 0 < lambda) (hl2 : lambda < 1)
    (hrs : VolatilityCalculator.calculateLogReturns (pd.map PriceData.price) = .ok rs)
    (hlen : 2 ≤ rs.length) :
    ∃ out, DVOLCalculator.calculateEWMADVOL pd lambda A = .ok out ∧
      out.dvol =
        Real.sqrt ((DVOLCalculator.ewmaVariances lambda rs).getLastD 0 * A) * 100 ∧
      (DVOLCalculator.ewmaVariances lambda rs).getD 0 0 = (rs.getD 0 0) ^ 2 ∧
      ∀ t, t + 1 < rs.length →
        (DVOLCalculator.ewmaVariances lambda rs).getD (t + 1) 0 =
          lambda * (DVOLCalculator.ewmaVariances lambda rs).getD t 0 +
            (1 - lambda) * (rs.getD (t + 1) 0) ^ 2 := by
  refine ⟨_, DVOLCalculator.calculateEWMADVOL_ok pd lambda A rs hl1 hl2 hrs hlen,
    rfl, ?_, ?_⟩
  · exact DVOLCalculator.ewmaVariances_getD_zero lambda rs
      (by intro he; rw [he] at hlen; simp at hlen)
  · exact DVOLCalculator.ewmaVariances_step lambda rs

/-- Witness for C6 at a concrete constant three-point series with
`lambda = 1/2`. -/
theorem claim6_ewma_recurrence_witness :
    ∃ out, DVOLCalculator.calculateEWMADVOL (List.replicate 3 (⟨0, 1⟩ : PriceData))
        (1 / 2) 365 = .ok out ∧
      out.dvol =
        Real.sqrt ((DVOLCalculator.ewmaVariances (1 / 2) (List.replicate 2 0)).getLastD 0
          * 365) * 100 ∧
      (DVOLCalculator.ewmaVariances (1 / 2) (List.replicate 2 0)).getD 0 0 =
        ((List.replicate 2 (0 : ℝ)).getD 0 0) ^ 2 ∧
      ∀ t, t + 1 < (List.replicate 2 (0 : ℝ)).length →
        (DVOLCalculator.ewmaVariances (1 / 2) (List.replicate 2 0)).getD (t + 1) 0 =
          (1 / 2) * (DVOLCalculator.ewmaVariances (1 / 2) (List.replicate 2 0)).getD t 0 +
            (1 - 1 / 2) * ((List.replicate 2 (0 : ℝ)).getD (t + 1) 0) ^ 2 :=
  claim6_ewma_recurrence (List.replicate 3 (⟨0, 1⟩ : PriceData)) (1 / 2) 365
    (List.replicate 2 0) (by norm_num) (by norm_num)
    (by rw [List.map_replicate]
        exact VolatilityCalculator.calculateLogReturns_replicate 3 1 one_pos (by norm_num))
    (by simp)

/-! ## Claim C2 -/

/-- Claim C2 counterexample: the simple method on the constant series
`[(0,1), (0,1), (0,1), (0,1)]` with `windowSize = 2` has `mean(vols) = 0`,
and the returned confidence is `NaN` (`none`), not `100`: a non-finite
value IS propagated into the returned confidence. -/
theorem claim2_counterexample :
    DVOLCalculator.calculateSimpleDVOL (List.replicate 4 (⟨0, 1⟩ : PriceData)) 2 365 =
      .ok ⟨0, none⟩ :=
  DVOLCalculator.simpleDVOL_const 4 2 1 365 one_pos (by norm_num) (by norm_num)

/-- Claim C2 amended: there is no zero-mean fallback in the stability and
confidence scoring.  When the mean is `0`, the code divides anyway:
`0/0` gives `NaN` (which survives the clamp, so the reported confidence is
`NaN`, not `100`), and `x/0` with `x ≠ 0` gives `±Infinity`, which the
clamp maps to `0` or `100`.  In particular the simple method on any
constant series reports a `NaN` confidence. -/
theorem claim2_amended :
    (∀ variances : List ℝ, 2 ≤ variances.length → meanR variances = 0 →
      DVOLCalculator.calculateStability variances =
        .ok
          (if Real.sqrt (sampleVar variances) = 0 then none
            else if 0 < Real.sqrt (sampleVar variances) then some 0 else some 100)) ∧
    (∀ (n w : ℕ) (c A : ℝ), 0 < c → 2 ≤ w → w + 2 ≤ n →
      DVOLCalculator.calculateSimpleDVOL (List.replicate n (⟨0, c⟩ : PriceData)) w A =
        .ok ⟨0, none⟩) := by
  constructor
  · intro variances hlen hm
    rw [DVOLCalculator.calculateStability_eq variances hlen, hm,
      DVOLCalculator.stabilityScore, if_pos rfl]
  · intro n w c A hc hw hn
    exact DVOLCalculator.simpleDVOL_const n w c A hc hw hn

/-- Witness for the amended C2: `calculateStability` on `[0, 0]` (zero mean,
zero stdev) yields `NaN` (`none`), not `100`. -/
theorem claim2_amended_witness :
    DVOLCalculator.calculateStability [(0 : ℝ), 0] =
      .ok
        (if Real.sqrt (sampleVar [(0 : ℝ), 0]) = 0 then none
          else if 0 < Real.sqrt (sampleVar [(0 : ℝ), 0]) then some 0 else some 100) :=
  claim2_amended.1 [(0 : ℝ), 0] (by norm_num)
    (by show ((0 : ℝ) + (0 + 0)) / 2 = 0; norm_num)

/-! ## Claim C7 -/

/-- Claim C7 counterexample: with `windowSize = 2` and exactly 2 log
returns (`len(returns) = windowSize`, which the claim says must succeed),
the simple method throws: the single-element `vols` array reaches
`calculateStandardDeviation`, which requires at least 2 values. -/
theorem claim7_counterexample :
    DVOLCalculator.calculateSimpleDVOL
        [(⟨0, 1⟩ : PriceData), ⟨0, 2⟩, ⟨0, 1⟩] 2 365 =
      .error "Need at least 2 values to calculate variance" := by
  have hrs : VolatilityCalculator.calculateLogReturns
      (([(⟨0, 1⟩ : PriceData), ⟨0, 2⟩, ⟨0, 1⟩]).map PriceData.price) =
      .ok (VolatilityCalculator.pairLogs 1 [2, 1]) := by
    show VolatilityCalculator.logReturnsAux 1 [2, 1] = _
    apply VolatilityCalculator.logReturnsAux_ok
    intro p hp
    simp only [List.mem_cons, List.not_mem_nil, or_false] at hp
    rcases hp with rfl | rfl | rfl <;> norm_num
  exact DVOLCalculator.calculateSimpleDVOL_window_eq _ 2 365 _ le_rfl hrs
    (by rw [VolatilityCalculator.pairLogs_length]; rfl)

/-- Claim C7 amended: the simple method fails with `InsufficientData` when
`len(returns) < windowSize`, but it also fails when `len(returns) =
windowSize`: the single rolling volatility reaches the confidence stdev,
which needs at least 2 values.  Only for `len(returns) ≥ windowSize + 1`
(and `windowSize ≥ 2`) does it succeed, and then `vols` has exactly
`len(returns) - windowSize + 1` entries, the entry for window end index
`i = windowSize-1+j` is the sample stdev of the trailing `windowSize`
returns ending at `i`, and `dvol = mean(vols) * sqrt(annualizationFactor)
* 100`. -/
theorem claim7_simple_window (pd : List PriceData) (w : ℕ) (A : ℝ) (rs : List ℝ)
    (hw : 2 ≤ w)
    (hrs : VolatilityCalculator.calculateLogReturns (pd.map PriceData.price) = .ok rs) :
    (rs.length < w →
      DVOLCalculator.calculateSimpleDVOL pd w A =
        .error "Insufficient data for window size") ∧
    (rs.length = w →
      DVOLCalculator.calculateSimpleDVOL pd w A =
        .error "Need at least 2 values to calculate variance") ∧
    (w + 1 ≤ rs.length →
      ∃ out, DVOLCalculator.calculateSimpleDVOL pd w A = .ok out ∧
        (DVOLCalculator.simpleVolsSpec rs w).length = rs.length - w + 1 ∧
        (∀ j < rs.length - w + 1,
          (DVOLCalculator.simpleVolsSpec rs w).getD j 0 =
            Real.sqrt (sampleVar ((rs.drop j).take w))) ∧
        out.dvol = meanR (DVOLCalculator.simpleVolsSpec rs w) * Real.sqrt A * 100) := by
  refine ⟨?_, ?_, ?_⟩
  · intro hlen
    exact DVOLCalculator.calculateSimpleDVOL_insufficient pd w A rs hrs hlen
  · intro hlen
    exact DVOLCalculator.calculateSimpleDVOL_window_eq pd w A rs hw hrs hlen
  · intro hlen
    refine ⟨_, DVOLCalculator.calculateSimpleDVOL_ok pd w A rs hw hrs hlen,
      DVOLCalculator.simpleVolsSpec_length rs w, ?_, rfl⟩
    exact DVOLCalculator.simpleVolsSpec_getD rs w (by omega)

/-- Witness for the amended C7 on a constant five-point series with
`windowSize = 2` (four returns, three windows): the success branch. -/
theorem claim7_simple_window_witness :
    ∃ out, DVOLCalculator.calculateSimpleDVOL (List.replicate 5 (⟨0, 1⟩ : PriceData))
        2 365 = .ok out ∧
      (DVOLCalculator.simpleVolsSpec (List.replicate 4 0) 2).length =
        (List.replicate 4 (0 : ℝ)).length - 2 + 1 ∧
      (∀ j < (List.replicate 4 (0 : ℝ)).length - 2 + 1,
        (DVOLCalculator.simpleVolsSpec (List.replicate 4 0) 2).getD j 0 =
          Real.sqrt (sampleVar (((List.replicate 4 (0 : ℝ)).drop j).take 2))) ∧
      out.dvol =
        meanR (DVOLCalculator.simpleVolsSpec (List.replicate 4 0) 2) *
          Real.sqrt 365 * 100 := by
  have hrs : VolatilityCalculator.calculateLogReturns
      ((List.replicate 5 (⟨0, 1⟩ : PriceData)).map PriceData.price) =
      .ok (List.replicate 4 0) := by
    rw [List.map_replicate]
    exact VolatilityCalculator.calculateLogReturns_replicate 5 1 one_pos (by norm_num)
  exact (claim7_simple_window (List.replicate 5 (⟨0, 1⟩ : PriceData)) 2 365
    (List.replicate 4 0) (by norm_num) hrs).2.2 (by simp)

/-! ### Confidence bounds for each estimator -/

namespace DVOLCalculator

theorem calculateDVOLIndex_bounds (d : ℝ) :
    0 ≤ calculateDVOLIndex d ∧ calculateDVOLIndex d ≤ 100 := by
  rw [calculateDVOLIndex]
  exact ⟨le_max_left 0 _, max_le (by norm_num) (min_le_left _ _)⟩

theorem calculateDVOLIndex_zero : calculateDVOLIndex 0 = 0 := by
  rw [calculateDVOLIndex, min_eq_right (by norm_num), max_eq_left (by norm_num)]

theorem calculateSimpleDVOL_conf_bound (pd : List PriceData) (w : ℕ) (A : ℝ)
    (out : MethodResult) (c : ℝ)
    (h : calculateSimpleDVOL pd w A = .ok out) (hc : out.confidence = some c) :
    0 ≤ c ∧ c ≤ 100 := by
  rw [calculateSimpleDVOL] at h
  cases hrs : VolatilityCalculator.calculateLogReturns (List.map PriceData.price pd) with
  | error e =>
    rw [hrs, exceptBind_error] at h
    exact Except.noConfusion h
  | ok rs =>
    rw [hrs, exceptBind_ok] at h
    by_cases hlen : rs.length < w
    · rw [if_pos hlen] at h
      exact Except.noConfusion h
    · rw [if_neg hlen] at h
      cases hvols : rollingVols rs w (idxFrom (w - 1) (rs.length - w + 1)) with
      | error e =>
        rw [hvols, exceptBind_error] at h
        exact Except.noConfusion h
      | ok vols =>
        rw [hvols, exceptBind_ok] at h
        cases hm : VolatilityCalculator.calculateMean vols with
        | error e =>
          rw [hm, exceptBind_error] at h
          exact Except.noConfusion h
        | ok m =>
          rw [hm, exceptBind_ok] at h
          cases hs : VolatilityCalculator.calculateStandardDeviation vols with
          | error e =>
            rw [hs, exceptBind_error] at h
            exact Except.noConfusion h
          | ok s =>
            rw [hs, exceptBind_ok, exceptBind_ok] at h
            injection h with h2
            rw [← h2] at hc
            exact stabilityScore_bounds s m c hc

theorem calculateEWMADVOL_conf_bound (pd : List PriceData) (lambda A : ℝ)
    (out : MethodResult) (c : ℝ)
    (h : calculateEWMADVOL pd lambda A = .ok out) (hc : out.confidence = some c) :
    0 ≤ c ∧ c ≤ 100 := by
  rw [calculateEWMADVOL] at h
  by_cases hl : lambda ≤ 0 ∨ 1 ≤ lambda
  · rw [if_pos hl] at h
    exact Except.noConfusion h
  · rw [if_neg hl] at h
    cases hrs : VolatilityCalculator.calculateLogReturns (List.map PriceData.price pd) with
    | error e =>
      simp only [hrs, exceptBind_error] at h
      exact Except.noConfusion h
    | ok rs =>
      simp only [hrs, exceptBind_ok] at h
      by_cases hlen : rs.length < 2
      · rw [if_pos hlen] at h
        exact Except.noConfusion h
      · rw [if_neg hlen, calculateStability_eq_spec, exceptBind_ok] at h
        injection h with h2
        rw [← h2] at hc
        obtain ⟨v, -, hfv⟩ := Option.map_eq_some'.mp hc
        rw [← hfv]
        exact ⟨le_max_left 0 _, max_le (by norm_num) (min_le_left _ _)⟩

theorem calculateGARCHConfidence_bound (residuals variances : List ℝ) (o : Option ℝ)
    (c : ℝ) (h : calculateGARCHConfidence residuals variances = .ok o)
    (hc : o = some c) : 0 ≤ c ∧ c ≤ 100 := by
  rw [calculateGARCHConfidence] at h
  by_cases hres : residuals.length = 0
  · rw [if_pos hres] at h
    injection h with h2
    rw [← h2] at hc
    obtain rfl : (50 : ℝ) = c := by simpa using hc
    norm_num
  · rw [if_neg hres] at h
    cases hm : VolatilityCalculator.calculateMean residuals with
    | error e =>
      rw [hm, exceptBind_error] at h
      exact Except.noConfusion h
    | ok m =>
      rw [hm, exceptBind_ok] at h
      cases hs : VolatilityCalculator.calculateStandardDeviation residuals with
      | error e =>
        rw [hs, exceptBind_error] at h
        exact Except.noConfusion h
      | ok s =>
        rw [hs, exceptBind_ok, calculateStability_eq_spec, exceptBind_ok] at h
        injection h with h2
        rw [← h2] at hc
        obtain ⟨v, hv, hfv⟩ := Option.map_eq_some'.mp hc
        obtain ⟨hv0, hv100⟩ := stabilitySpec_bounds variances v hv
        have hq0 : (0 : ℝ) ≤ max 0 (100 - (|m| + |s - 1|) * 50) := le_max_left 0 _
        have hq100 : max 0 (100 - (|m| + |s - 1|) * 50) ≤ 100 := by
          apply max_le (by norm_num)
          have : 0 ≤ (|m| + |s - 1|) * 50 := by positivity
          linarith
        rw [← hfv]
        constructor
        · positivity
        · linarith

theorem calculateGARCHDVOL_conf_bound (pd : List PriceData) (g : GARCHParams) (A : ℝ)
    (out : MethodResult) (c : ℝ)
    (h : calculateGARCHDVOL pd g A = .ok out) (hc : out.confidence = some c) :
    0 ≤ c ∧ c ≤ 100 := by
  rw [calculateGARCHDVOL] at h
  by_cases hp : g.omega ≤ 0 ∨ g.alpha < 0 ∨ g.beta < 0 ∨ 1 ≤ g.alpha + g.beta
  · rw [if_pos hp] at h
    exact Except.noConfusion h
  · rw [if_neg hp] at h
    cases hrs : VolatilityCalculator.calculateLogReturns (List.map PriceData.price pd) with
    | error e =>
      simp only [hrs, exceptBind_error] at h
      exact Except.noConfusion h
    | ok rs =>
      simp only [hrs, exceptBind_ok] at h
      by_cases hlen : rs.length < 10
      · rw [if_pos hlen] at h
        exact Except.noConfusion h
      · rw [if_neg hlen] at h
        cases hvar : VolatilityCalculator.calculateVariance rs with
        | error e =>
          simp only [hvar, exceptBind_error] at h
          exact Except.noConfusion h
        | ok v0 =>
          simp only [hvar, exceptBind_ok] at h
          cases hgc : calculateGARCHConfidence
              (garchSteps g.omega g.alpha g.beta (rs.headD 0) v0 rs.tail).2
              (v0 :: (garchSteps g.omega g.alpha g.beta (rs.headD 0) v0 rs.tail).1) with
          | error e =>
            rw [hgc, exceptBind_error] at h
            exact Except.noConfusion h
          | ok o =>
            rw [hgc, exceptBind_ok] at h
            injection h with h2
            rw [← h2] at hc
            exact calculateGARCHConfidence_bound _ _ o c hgc hc

end DVOLCalculator

/-! ## Claim C3 -/

/-- Claim C3 counterexample: on the constant four-point series with
`windowSize = 2`, `calculateDVOL` succeeds with `confidence = NaN`
(`none`), which is not a real number in `[0, 100]`: the claim that the
returned confidence always lies in `[0, 100]` fails. -/
theorem claim3_counterexample :
    DVOLCalculator.calculateDVOL (List.replicate 4 (⟨0, 1⟩ : PriceData)) .simple
        ⟨some 2, none, none, none⟩ 0 =
      .ok ⟨0, 0, none, .simple, 4, 0⟩ := by
  have hv : DVOLCalculator.validateInput (List.replicate 4 (⟨0, 1⟩ : PriceData))
      .simple = .ok () := by
    apply DVOLCalculator.validateInput_ok
    · rw [List.length_replicate]
      norm_num
    · rw [List.length_replicate]
      norm_num [DVOLCalculator.minDataPoints]
    · intro d hd
      rw [List.eq_of_mem_replicate hd]
      norm_num
  rw [DVOLCalculator.calculateDVOL_unfold _ _ _ _ hv]
  rw [show (⟨some 2, none, none, none⟩ : DVOLOptions).windowSize.getD
      DVOLCalculator.DEFAULT_WINDOW_SIZE = 2 from rfl,
    show (⟨some 2, none, none, none⟩ : DVOLOptions).annualizationFactor.getD
      DVOLCalculator.ANNUALIZATION_FACTOR = 365 from rfl,
    DVOLCalculator.simpleDVOL_const 4 2 1 365 one_pos (by norm_num) (by norm_num)]
  simp only [Except.map]
  rw [DVOLCalculator.calculateDVOLIndex_zero]
  rfl

/-- Claim C3 amended: on every successful `calculateDVOL` call the returned
`dvolIndex` lies in `[0, 100]`, and the returned `confidence`, whenever it
is a (finite) number, lies in `[0, 100]` — but for the simple and EWMA
methods the confidence can instead be `NaN` in the degenerate zero-mean
stability case (see `claim3_counterexample`). -/
theorem claim3_amended (pd : List PriceData) (method : DVOLMethod)
    (options : DVOLOptions) (now : ℤ) (r : DVOLResult)
    (h : DVOLCalculator.calculateDVOL pd method options now = .ok r) :
    (0 ≤ r.dvolIndex ∧ r.dvolIndex ≤ 100) ∧
    ∀ c, r.confidence = some c → 0 ≤ c ∧ c ≤ 100 := by
  cases hv : DVOLCalculator.validateInput pd method with
  | error e =>
    rw [DVOLCalculator.calculateDVOL] at h
    simp only [hv, exceptBind_error] at h
    exact Except.noConfusion h
  | ok u =>
    cases u
    rw [DVOLCalculator.calculateDVOL_unfold pd method options now hv] at h
    cases method
    case simple =>
      cases hm : DVOLCalculator.calculateSimpleDVOL pd
          (options.windowSize.getD DVOLCalculator.DEFAULT_WINDOW_SIZE)
          (options.annualizationFactor.getD DVOLCalculator.ANNUALIZATION_FACTOR) with
      | error e =>
        simp only [hm, Except.map] at h
        exact Except.noConfusion h
      | ok out =>
        simp only [hm, Except.map] at h
        injection h with h2
        subst h2
        refine ⟨DVOLCalculator.calculateDVOLIndex_bounds out.dvol, fun c hc => ?_⟩
        exact DVOLCalculator.calculateSimpleDVOL_conf_bound _ _ _ out c hm hc
    case ewma =>
      cases hm : DVOLCalculator.calculateEWMADVOL pd
          (options.ewmaLambda.getD DVOLCalculator.DEFAULT_EWMA_LAMBDA)
          (options.annualizationFactor.getD DVOLCalculator.ANNUALIZATION_FACTOR) with
      | error e =>
        simp only [hm, Except.map] at h
        exact Except.noConfusion h
      | ok out =>
        simp only [hm, Except.map] at h
        injection h with h2
        subst h2
        refine ⟨DVOLCalculator.calculateDVOLIndex_bounds out.dvol, fun c hc => ?_⟩
        exact DVOLCalculator.calculateEWMADVOL_conf_bound _ _ _ out c hm hc
    case garch =>
      cases hm : DVOLCalculator.calculateGARCHDVOL pd
          (options.garchParams.getD DVOLCalculator.DEFAULT_GARCH_PARAMS)
          (options.annualizationFactor.getD DVOLCalculator.ANNUALIZATION_FACTOR) with
      | error e =>
        simp only [hm, Except.map] at h
        exact Except.noConfusion h
      | ok out =>
        simp only [hm, Except.map] at h
        injection h with h2
        subst h2
        refine ⟨DVOLCalculator.calculateDVOLIndex_bounds out.dvol, fun c hc => ?_⟩
        exact DVOLCalculator.calculateGARCHDVOL_conf_bound _ _ _ out c hm hc

/-! ### Entry-point evaluations on constant series -/

namespace DVOLCalculator

theorem validateInput_replicate (n : ℕ) (c : ℝ) (method : DVOLMethod) (hc : 0 < c)
    (h2 : 2 ≤ n) (hmin : minDataPoints method ≤ n) :
    validateInput (List.replicate n (⟨0, c⟩ : PriceData)) method = .ok () := by
  apply validateInput_ok
  · rw [List.length_replicate]
    exact h2
  · rw [List.length_replicate]
    exact hmin
  · intro d hd
    rw [List.eq_of_mem_replicate hd]
    exact hc

theorem calculateDVOL_ewma_const (n : ℕ) (c : ℝ) (now : ℤ) (hc : 0 < c)
    (hn : 5 ≤ n) :
    calculateDVOL (List.replicate n (⟨0, c⟩ : PriceData)) .ewma {} now =
      .ok ⟨0, 0, none, .ewma, n, now⟩ := by
  have hv := validateInput_replicate n c .ewma hc (by omega)
    (by rw [minDataPoints]; omega)
  rw [calculateDVOL_unfold _ _ _ _ hv,
    show ({} : DVOLOptions).ewmaLambda.getD DEFAULT_EWMA_LAMBDA = 0.94 from rfl,
    show ({} : DVOLOptions).annualizationFactor.getD ANNUALIZATION_FACTOR = 365 from rfl,
    ewmaDVOL_const n c 0.94 365 hc (by norm_num) (by norm_num) (by omega)]
  simp only [Except.map]
  rw [calculateDVOLIndex_zero, List.length_replicate]

theorem calculateDVOL_simple_const (n : ℕ) (c : ℝ) (now : ℤ) (hc : 0 < c)
    (hn : 32 ≤ n) :
    calculateDVOL (List.replicate n (⟨0, c⟩ : PriceData)) .simple {} now =
      .ok ⟨0, 0, none, .simple, n, now⟩ := by
  have hv := validateInput_replicate n c .simple hc (by omega)
    (by rw [minDataPoints]; omega)
  rw [calculateDVOL_unfold _ _ _ _ hv,
    show ({} : DVOLOptions).windowSize.getD DEFAULT_WINDOW_SIZE = 30 from rfl,
    show ({} : DVOLOptions).annualizationFactor.getD ANNUALIZATION_FACTOR = 365 from rfl,
    simpleDVOL_const n 30 c 365 hc (by norm_num) (by omega)]
  simp only [Except.map]
  rw [calculateDVOLIndex_zero, List.length_replicate]

theorem garchDVOL_const_pos (n : ℕ) (c A : ℝ) (hc : 0 < c) (hA : 0 < A)
    (hn : 11 ≤ n) :
    ∃ out, calculateGARCHDVOL (List.replicate n (⟨0, c⟩ : PriceData))
        DEFAULT_GARCH_PARAMS A = .ok out ∧ 0 < out.dvol := by
  have hrs : VolatilityCalculator.calculateLogReturns
      ((List.replicate n (⟨0, c⟩ : PriceData)).map PriceData.price) =
      .ok (List.replicate (n - 1) 0) := by
    rw [List.map_replicate]
    exact VolatilityCalculator.calculateLogReturns_replicate n c hc (by omega)
  have h := calculateGARCHDVOL_ok (List.replicate n (⟨0, c⟩ : PriceData))
    DEFAULT_GARCH_PARAMS A (List.replicate (n - 1) 0)
    (by norm_num [DEFAULT_GARCH_PARAMS]) (by norm_num [DEFAULT_GARCH_PARAMS])
    (by norm_num [DEFAULT_GARCH_PARAMS]) (by norm_num [DEFAULT_GARCH_PARAMS])
    hrs (by rw [List.length_replicate]; omega)
  refine ⟨_, h, ?_⟩
  have hfstne : (garchSteps DEFAULT_GARCH_PARAMS.omega DEFAULT_GARCH_PARAMS.alpha
      DEFAULT_GARCH_PARAMS.beta ((List.replicate (n - 1) (0 : ℝ)).headD 0)
      (sampleVar (List.replicate (n - 1) 0))
      (List.replicate (n - 1) (0 : ℝ)).tail).1 ≠ [] := by
    intro he
    have hlen2 := garchSteps_fst_length DEFAULT_GARCH_PARAMS.omega
      DEFAULT_GARCH_PARAMS.alpha DEFAULT_GARCH_PARAMS.beta
      ((List.replicate (n - 1) (0 : ℝ)).headD 0)
      (sampleVar (List.replicate (n - 1) 0)) (List.replicate (n - 1) (0 : ℝ)).tail
    rw [he, List.length_tail, List.length_replicate] at hlen2
    simp only [List.length_nil] at hlen2
    omega
  have hlast : DEFAULT_GARCH_PARAMS.omega ≤
      (sampleVar (List.replicate (n - 1) 0) ::
        (garchSteps DEFAULT_GARCH_PARAMS.omega DEFAULT_GARCH_PARAMS.alpha
          DEFAULT_GARCH_PARAMS.beta ((List.replicate (n - 1) (0 : ℝ)).headD 0)
          (sampleVar (List.replicate (n - 1) 0))
          (List.replicate (n - 1) (0 : ℝ)).tail).1).getLastD 0 := by
    rw [List.getLastD_cons]
    apply garchSteps_fst_ge DEFAULT_GARCH_PARAMS.omega DEFAULT_GARCH_PARAMS.alpha
      DEFAULT_GARCH_PARAMS.beta (by norm_num [DEFAULT_GARCH_PARAMS])
      (by norm_num [DEFAULT_GARCH_PARAMS]) (by norm_num [DEFAULT_GARCH_PARAMS])
      _ _ _ (VolatilityCalculator.sampleVar_nonneg (List.replicate (n - 1) 0)
        (by rw [List.length_replicate]; omega))
    exact getLastD_mem _ _ hfstne
  show (0 : ℝ) < Real.sqrt (_ * A) * 100
  have homega : (0 : ℝ) < DEFAULT_GARCH_PARAMS.omega := by norm_num [DEFAULT_GARCH_PARAMS]
  have hpos : (0 : ℝ) < (sampleVar (List.replicate (n - 1) 0) ::
      (garchSteps DEFAULT_GARCH_PARAMS.omega DEFAULT_GARCH_PARAMS.alpha
        DEFAULT_GARCH_PARAMS.beta ((List.replicate (n - 1) (0 : ℝ)).headD 0)
        (sampleVar (List.replicate (n - 1) 0))
        (List.replicate (n - 1) (0 : ℝ)).tail).1).getLastD 0 := lt_of_lt_of_le homega hlast
  have := Real.sqrt_pos.mpr (mul_pos hpos hA)
  linarith

theorem calculateDVOL_garch_const (n : ℕ) (c : ℝ) (now : ℤ) (hc : 0 < c)
    (hn : 11 ≤ n) :
    ∃ r, calculateDVOL (List.replicate n (⟨0, c⟩ : PriceData)) .garch {} now = .ok r ∧
      0 < r.dvol := by
  have hv := validateInput_replicate n c .garch hc (by omega)
    (by rw [minDataPoints]; omega)
  obtain ⟨out, hout, hpos⟩ := garchDVOL_const_pos n c 365 hc (by norm_num) hn
  rw [calculateDVOL_unfold _ _ _ _ hv,
    show ({} : DVOLOptions).garchParams.getD DEFAULT_GARCH_PARAMS =
      DEFAULT_GARCH_PARAMS from rfl,
    show ({} : DVOLOptions).annualizationFactor.getD ANNUALIZATION_FACTOR = 365 from rfl,
    hout]
  simp only [Except.map]
  exact ⟨_, rfl, hpos⟩

end DVOLCalculator

/-! ## Claim C4 -/

/-- Claim C4 counterexample: two `calculateDVOL` calls with identical user
arguments made at different wall-clock instants return different results:
the `calculatedAt` field is `new Date()`, so it differs between the calls. -/
theorem claim4_counterexample :
    DVOLCalculator.calculateDVOL (List.replicate 5 (⟨0, 1⟩ : PriceData)) .ewma {} 0 ≠
      DVOLCalculator.calculateDVOL (List.replicate 5 (⟨0, 1⟩ : PriceData)) .ewma {} 1 := by
  rw [DVOLCalculator.calculateDVOL_ewma_const 5 1 0 one_pos (by norm_num),
    DVOLCalculator.calculateDVOL_ewma_const 5 1 1 one_pos (by norm_num)]
  intro h
  injection h with h2
  have := congrArg DVOLResult.calculatedAt h2
  simp at this

/-- Claim C4 amended: `computeLogReturns`, `volatilityMetrics` and
`diagnostics` are pure functions of their arguments (determinism is
definitional in this model), and `dvol` is deterministic in every field
except `calculatedAt`: two calls with the same user arguments agree on
`dvol`, `dvolIndex`, `confidence`, `method` and `dataPoints`, while
`calculatedAt` equals the wall-clock reading of the call. -/
theorem claim4_amended (pd : List PriceData) (method : DVOLMethod)
    (options : DVOLOptions) (t1 t2 : ℤ) :
    ((DVOLCalculator.calculateDVOL pd method options t1).map fun r =>
        (r.dvol, r.dvolIndex, r.confidence, r.method, r.dataPoints)) =
      ((DVOLCalculator.calculateDVOL pd method options t2).map fun r =>
        (r.dvol, r.dvolIndex, r.confidence, r.method, r.dataPoints)) ∧
    ∀ r, DVOLCalculator.calculateDVOL pd method options t1 = .ok r →
      r.calculatedAt = t1 := by
  cases hv : DVOLCalculator.validateInput pd method with
  | error e =>
    constructor
    · simp only [DVOLCalculator.calculateDVOL, hv, exceptBind_error]
    · intro r hr
      rw [DVOLCalculator.calculateDVOL] at hr
      simp only [hv, exceptBind_error] at hr
      exact Except.noConfusion hr
  | ok u =>
    cases u
    rw [DVOLCalculator.calculateDVOL_unfold pd method options t1 hv,
      DVOLCalculator.calculateDVOL_unfold pd method options t2 hv]
    cases hE :
      (match method with
        | .simple =>
          DVOLCalculator.calculateSimpleDVOL pd
            (options.windowSize.getD DVOLCalculator.DEFAULT_WINDOW_SIZE)
            (options.annualizationFactor.getD DVOLCalculator.ANNUALIZATION_FACTOR)
        | .ewma =>
          DVOLCalculator.calculateEWMADVOL pd
            (options.ewmaLambda.getD DVOLCalculator.DEFAULT_EWMA_LAMBDA)
            (options.annualizationFactor.getD DVOLCalculator.ANNUALIZATION_FACTOR)
        | .garch =>
          DVOLCalculator.calculateGARCHDVOL pd
            (options.garchParams.getD DVOLCalculator.DEFAULT_GARCH_PARAMS)
            (options.annualizationFactor.getD DVOLCalculator.ANNUALIZATION_FACTOR)) with
    | error e =>
      constructor
      · simp only [hE, Except.map]
      · intro r hr
        simp only [Except.map] at hr
        exact Except.noConfusion hr
    | ok out =>
      constructor
      · simp only [hE, Except.map]
      · intro r hr
        simp only [Except.map] at hr
        injection hr with h2
        rw [← h2]

/-- Witness for the amended C3 at a concrete constant five-point series
with the EWMA method. -/
theorem claim3_amended_witness :
    (0 ≤ (⟨0, 0, none, .ewma, 5, 0⟩ : DVOLResult).dvolIndex ∧
      (⟨0, 0, none, .ewma, 5, 0⟩ : DVOLResult).dvolIndex ≤ 100) ∧
    ∀ c, (⟨0, 0, none, .ewma, 5, 0⟩ : DVOLResult).confidence = some c →
      0 ≤ c ∧ c ≤ 100 :=
  claim3_amended (List.replicate 5 (⟨0, 1⟩ : PriceData)) .ewma {} 0
    ⟨0, 0, none, .ewma, 5, 0⟩
    (DVOLCalculator.calculateDVOL_ewma_const 5 1 0 one_pos (by norm_num))

/-- Witness for the amended C4 at a concrete constant series and the
instants `0` and `1`. -/
theorem claim4_amended_witness :
    ((DVOLCalculator.calculateDVOL (List.replicate 5 (⟨0, 1⟩ : PriceData)) .ewma {}
        0).map fun r => (r.dvol, r.dvolIndex, r.confidence, r.method, r.dataPoints)) =
      ((DVOLCalculator.calculateDVOL (List.replicate 5 (⟨0, 1⟩ : PriceData)) .ewma {}
        1).map fun r => (r.dvol, r.dvolIndex, r.confidence, r.method, r.dataPoints)) ∧
    ∀ r, DVOLCalculator.calculateDVOL (List.replicate 5 (⟨0, 1⟩ : PriceData)) .ewma {}
        0 = .ok r → r.calculatedAt = 0 :=
  claim4_amended (List.replicate 5 (⟨0, 1⟩ : PriceData)) .ewma {} 0 1

/-! ## Claim C1 -/

namespace VolatilityCalculator

theorem getPeriodsPerYear_pos (period : String) (dataPoints : ℕ) (h : 1 ≤ dataPoints) :
    0 < getPeriodsPerYear period dataPoints := by
  rw [getPeriodsPerYear]
  split_ifs <;> omega

theorem calculateMetrics_const (n : ℕ) (c : ℝ) (period : String) (hc : 0 < c)
    (hn : 3 ≤ n) :
    calculateMetrics (List.replicate n (⟨0, c⟩ : PriceData)) period = .ok ⟨0, 0, 0⟩ := by
  have hrs : calculateLogReturns ((List.replicate n (⟨0, c⟩ : PriceData)).map
      PriceData.price) = .ok (List.replicate (n - 1) 0) := by
    rw [List.map_replicate]
    exact calculateLogReturns_replicate n c hc (by omega)
  have hvar : calculateVariance (List.replicate (n - 1) (0 : ℝ)) = .ok 0 := by
    rw [calculateVariance_ok _ (by rw [List.length_replicate]; omega),
      sampleVar_replicate _ 0 (by omega)]
  have hppy : ¬((VolatilityCalculator.getPeriodsPerYear period
      (List.replicate (n - 1) (0 : ℝ)).length : ℝ) ≤ 0) := by
    rw [not_le]
    exact_mod_cast getPeriodsPerYear_pos period _ (by rw [List.length_replicate]; omega)
  have hann : annualizeVolatility (Real.sqrt 0)
      ((getPeriodsPerYear period (List.replicate (n - 1) (0 : ℝ)).length : ℕ) : ℝ) =
      .ok 0 := by
    rw [annualizeVolatility, if_neg hppy, Real.sqrt_zero, zero_mul]
  rw [calculateMetrics, if_neg (by rw [List.length_replicate]; omega)]
  simp only [hrs, exceptBind_ok, hvar, hann]
  have h1 : Real.sqrt 0 * (100 : ℝ) = 0 := by rw [Real.sqrt_zero]; ring
  have h2 : (0 : ℝ) * 10000 = 0 := by ring
  have h3 : (0 : ℝ) * 100 = 0 := by ring
  rw [h1, h2, h3]

end VolatilityCalculator

/-- Claim C1 counterexample: on the constant series of 11 points of price 1,
the GARCH method succeeds but its dvol is NOT `0`: each GARCH step adds
`omega = 1e-6 > 0`, so the final conditional variance, and with it
`dvol = sqrt(var_last * 365) * 100`, is strictly positive. -/
theorem claim1_counterexample :
    (DVOLCalculator.calculateDVOL (List.replicate 11 (⟨0, 1⟩ : PriceData)) .garch {}
      0).toOption.isSome = true ∧
    (DVOLCalculator.calculateDVOL (List.replicate 11 (⟨0, 1⟩ : PriceData)) .garch {}
      0).toOption.map DVOLResult.dvol ≠ some 0 := by
  obtain ⟨r, hr, hpos⟩ :=
    DVOLCalculator.calculateDVOL_garch_const 11 1 0 one_pos (by norm_num)
  rw [hr]
  refine ⟨rfl, ?_⟩
  show some r.dvol ≠ some 0
  intro hcontra
  exact absurd (Option.some.inj hcontra) (ne_of_gt hpos)

/-- Claim C1 amended: on a strictly constant positive price series the log
returns are all `0`, the sample variance of the returns is `0`, the
volatility metrics are `0`, and the dvol returned by `calculateDVOL` with
default options is `0` for the simple and EWMA methods — but for GARCH the
returned dvol is strictly positive (the recursion adds `omega > 0` at every
step), not `0` as claimed. -/
theorem claim1_constant_series (n : ℕ) (c : ℝ) (now : ℤ) (hc : 0 < c) :
    (2 ≤ n → VolatilityCalculator.calculateLogReturns (List.replicate n c) =
      .ok (List.replicate (n - 1) 0)) ∧
    (3 ≤ n → VolatilityCalculator.calculateVariance (List.replicate (n - 1) (0 : ℝ)) =
      .ok 0) ∧
    (3 ≤ n → ∀ period, VolatilityCalculator.calculateMetrics
      (List.replicate n (⟨0, c⟩ : PriceData)) period = .ok ⟨0, 0, 0⟩) ∧
    (32 ≤ n → DVOLCalculator.calculateDVOL (List.replicate n (⟨0, c⟩ : PriceData))
      .simple {} now = .ok ⟨0, 0, none, .simple, n, now⟩) ∧
    (5 ≤ n → DVOLCalculator.calculateDVOL (List.replicate n (⟨0, c⟩ : PriceData))
      .ewma {} now = .ok ⟨0, 0, none, .ewma, n, now⟩) ∧
    (11 ≤ n → ∃ r, DVOLCalculator.calculateDVOL (List.replicate n (⟨0, c⟩ : PriceData))
      .garch {} now = .ok r ∧ 0 < r.dvol) := by
  refine ⟨?_, ?_, ?_, ?_, ?_, ?_⟩
  · intro h2
    exact VolatilityCalculator.calculateLogReturns_replicate n c hc h2
  · intro h3
    rw [VolatilityCalculator.calculateVariance_ok _ (by rw [List.length_replicate]; omega),
      VolatilityCalculator.sampleVar_replicate _ 0 (by omega)]
  · intro h3 period
    exact VolatilityCalculator.calculateMetrics_const n c period hc h3
  · intro h
    exact DVOLCalculator.calculateDVOL_simple_const n c now hc h
  · intro h
    exact DVOLCalculator.calculateDVOL_ewma_const n c now hc h
  · intro h
    exact DVOLCalculator.calculateDVOL_garch_const n c now hc h

/-- Witness for the amended C1 at the constant series of 32 points of
price 1, taken at instant 0. -/
theorem claim1_constant_series_witness :
    VolatilityCalculator.calculateLogReturns (List.replicate 32 (1 : ℝ)) =
      .ok (List.replicate 31 0) ∧
    VolatilityCalculator.calculateVariance (List.replicate 31 (0 : ℝ)) = .ok 0 ∧
    VolatilityCalculator.calculateMetrics (List.replicate 32 (⟨0, 1⟩ : PriceData))
      "30d" = .ok ⟨0, 0, 0⟩ ∧
    DVOLCalculator.calculateDVOL (List.replicate 32 (⟨0, 1⟩ : PriceData)) .simple {} 0 =
      .ok ⟨0, 0, none, .simple, 32, 0⟩ ∧
    DVOLCalculator.calculateDVOL (List.replicate 32 (⟨0, 1⟩ : PriceData)) .ewma {} 0 =
      .ok ⟨0, 0, none, .ewma, 32, 0⟩ ∧
    ∃ r, DVOLCalculator.calculateDVOL (List.replicate 32 (⟨0, 1⟩ : PriceData))
      .garch {} 0 = .ok r ∧ 0 < r.dvol := by
  obtain ⟨h1, h2, h3, h4, h5, h6⟩ := claim1_constant_series 32 1 0 one_pos
  exact ⟨h1 (by norm_num), h2 (by norm_num), h3 (by norm_num) "30d", h4 (by norm_num),
    h5 (by norm_num), h6 (by norm_num)⟩

end
